import Mathlib

/-!
Verification development for the `messor` task-execution engine.

The embedding mirrors the two source modules:

* `src/messor/memory/sqlite_memory.py` — class `SQLiteMemory`, a durable
  store with four SQLite tables (`task_definition`, `task_status`,
  `task_result`, `task_error`), each keyed by `task_id TEXT PRIMARY KEY`.
  Tables are modelled as association lists in row order (rowid order);
  primary-key uniqueness is an invariant proved of all reachable states,
  not baked into the representation.  `json.dumps`/`json.loads` round-trip
  on the JSON-serializable values the store handles, so the embedding
  stores the values themselves instead of their serialized text.

* `src/messor/local_threaded_executor.py` — class `LocalThreadedExecutor`.
  The driver harvests one completion at a time and is the only writer to
  the store, so a run is embedded as a fold over a completion order; the
  completion order of the thread pool is an arbitrary permutation of the
  dispatched tasks and is passed in as a parameter.  The optional
  `stop_all_when` predicate is impure in the source; it is embedded as an
  optional Boolean function of the number of harvested completions (the
  sequence of values the predicate returns at successive checks).

Python truthiness matters in `update_task_statuses` (`if result:` /
`if error:`): `None`, the empty dict and the empty string are all falsy,
so the embedding tests emptiness, not only presence.
-/

namespace Messor

/-- JSON values, as stored by `json.dumps`/`json.loads` in the TEXT
columns.  Python dicts (`task_data`, `result`) are objects with string
keys.  Every claim treats stored values as opaque round-tripped blobs
(only presence, emptiness and equality matter), so nesting of values is
omitted. -/
inductive JVal where
  | null : JVal
  | bool : Bool → JVal
  | num : Int → JVal
  | str : String → JVal
deriving DecidableEq, Repr

/-- A Python dict of JSON-serializable values (`task_data`, `result`). -/
abbrev JDict := List (String × JVal)

abbrev TaskId := String

/-- A SQLite table keyed by `task_id`, in row order. -/
abbrev Table (α : Type) := List (TaskId × α)

/-- `SELECT v FROM t WHERE task_id = id` returning the first matching row,
as `cursor.fetchone()` does. -/
def tableLookup {α : Type} : Table α → TaskId → Option α
  | [], _ => none
  | (k, v) :: rest, id => if k = id then some v else tableLookup rest id

/-- `INSERT OR IGNORE INTO t (task_id, v) VALUES (id, v)`: a row whose key
already exists is left alone; otherwise the new row is appended. -/
def insertOrIgnore {α : Type} (t : Table α) (id : TaskId) (v : α) : Table α :=
  if (tableLookup t id).isSome then t else t ++ [(id, v)]

/-- `DELETE FROM t WHERE task_id = id`. -/
def deleteWhere {α : Type} (t : Table α) (id : TaskId) : Table α :=
  t.filter (fun r => r.1 ≠ id)

/-- `INSERT OR REPLACE INTO t (task_id, v) VALUES (id, v)`: the REPLACE
conflict resolution deletes any conflicting row and inserts the new row
(with a fresh rowid, hence at the end). -/
def insertOrReplace {α : Type} (t : Table α) (id : TaskId) (v : α) : Table α :=
  deleteWhere t id ++ [(id, v)]

/-- `UPDATE t SET v = v WHERE task_id = id`: rewrites matching rows in
place; a missing key updates nothing. -/
def updateWhere {α : Type} (t : Table α) (id : TaskId) (v : α) : Table α :=
  t.map (fun r => if r.1 = id then (r.1, v) else r)

/-- The persistent state of `SQLiteMemory`: its four tables. -/
structure SQLiteMemory where
  task_definition : Table JDict
  task_status : Table String
  task_result : Table JDict
  task_error : Table String
deriving DecidableEq, Repr

/-- A fresh database, as produced by `_setup_db` on a new file. -/
def emptyMemory : SQLiteMemory :=
  { task_definition := [], task_status := [], task_result := [], task_error := [] }

/-- `SQLiteMemory.store_tasks`: `INSERT OR IGNORE` every (id, definition)
pair into `task_definition`, then `INSERT OR IGNORE` every id into
`task_status` with status `'pending'`. -/
def store_tasks (m : SQLiteMemory) (tasks : List (TaskId × JDict)) : SQLiteMemory :=
  { m with
    task_definition :=
      tasks.foldl (fun t p => insertOrIgnore t p.1 p.2) m.task_definition
    task_status :=
      tasks.foldl (fun t p => insertOrIgnore t p.1 "pending") m.task_status }

/-- One element of the batch passed to `update_task_statuses`:
`(task_id, status, result, error)` with `result : Optional[dict]` and
`error : Optional[str]`. -/
structure StatusEntry where
  task_id : TaskId
  status : String
  result : Option JDict
  error : Option String
deriving DecidableEq, Repr

/-- Python truthiness of `result : Optional[dict]`: `None` and `{}` are
falsy. -/
def truthyDict : Option JDict → Bool
  | some d => !d.isEmpty
  | none => false

/-- Python truthiness of `error : Optional[str]`: `None` and `""` are
falsy. -/
def truthyStr : Option String → Bool
  | some s => !s.isEmpty
  | none => false

/-- The second phase of `update_task_statuses` for a single entry:
`if result: INSERT OR REPLACE ...` then `if error: INSERT OR REPLACE ...`. -/
def applyResultError (m : SQLiteMemory) (e : StatusEntry) : SQLiteMemory :=
  let m1 :=
    match e.result with
    | some d =>
        if d.isEmpty then m
        else { m with task_result := insertOrReplace m.task_result e.task_id d }
    | none => m
  match e.error with
  | some s =>
      if s.isEmpty then m1
      else { m1 with task_error := insertOrReplace m1.task_error e.task_id s }
  | none => m1

/-- `SQLiteMemory.update_task_statuses`: first an `executemany` of
`UPDATE task_status SET status = ? WHERE task_id = ?` over the whole
batch, then, per entry, conditional `INSERT OR REPLACE` of result and
error under Python truthiness. -/
def update_task_statuses (m : SQLiteMemory) (statuses : List StatusEntry) : SQLiteMemory :=
  let afterStatus :=
    { m with
      task_status :=
        statuses.foldl (fun t e => updateWhere t e.task_id e.status) m.task_status }
  statuses.foldl applyResultError afterStatus

/-- `SQLiteMemory.get_task_status`: `fetchone()` on the matching row, then
subscript `[0]`.  When no row matches, `fetchone()` returns `None` and the
subscript raises a `TypeError`; the raised error is embedded as
`Except.error`. -/
def get_task_status (m : SQLiteMemory) (id : TaskId) : Except String String :=
  match tableLookup m.task_status id with
  | some st => Except.ok st
  | none => Except.error "TypeError: NoneType object is not subscriptable"

/-- `SQLiteMemory.get_pending_tasks`: ids of rows with status `'pending'`. -/
def get_pending_tasks (m : SQLiteMemory) : List TaskId :=
  (m.task_status.filter (fun r => r.2 = "pending")).map (fun r => r.1)

/-- `SQLiteMemory.get_completed_tasks`: ids of rows with status
`'completed'`. -/
def get_completed_tasks (m : SQLiteMemory) : List TaskId :=
  (m.task_status.filter (fun r => r.2 = "completed")).map (fun r => r.1)

/-- `SQLiteMemory.get_failed_tasks`: an inner join of `task_status`
(status `'failed'`) with `task_error`; a failed row with no error row
produces nothing. -/
def get_failed_tasks (m : SQLiteMemory) : List (TaskId × String) :=
  (m.task_status.filter (fun r => r.2 = "failed")).filterMap
    (fun r => (tableLookup m.task_error r.1).map (fun e => (r.1, e)))

/-- `SQLiteMemory.get_task_result`: the stored result if a `task_result`
row exists for the id, else `None`. -/
def get_task_result (m : SQLiteMemory) (id : TaskId) : Option JDict :=
  tableLookup m.task_result id

/-- `SQLiteMemory.clear`: `DELETE FROM` all four tables. -/
def clear (_m : SQLiteMemory) : SQLiteMemory := emptyMemory

/-- `SQLiteMemory.clear_tasks`: per id, `DELETE ... WHERE task_id = ?`
from all four tables. -/
def clear_tasks (m : SQLiteMemory) (ids : List TaskId) : SQLiteMemory :=
  ids.foldl
    (fun m id =>
      { task_definition := deleteWhere m.task_definition id
        task_status := deleteWhere m.task_status id
        task_result := deleteWhere m.task_result id
        task_error := deleteWhere m.task_error id })
    m

/-- The snapshot returned by `SQLiteMemory.dump_all`: the four collections
as id-keyed mappings (the tables have unique keys in reachable states). -/
structure Dump where
  task_definitions : Table JDict
  task_statuses : Table String
  task_results : Table JDict
  task_errors : Table String
deriving DecidableEq, Repr

/-- `SQLiteMemory.dump_all`. -/
def dump_all (m : SQLiteMemory) : Dump :=
  { task_definitions := m.task_definition
    task_statuses := m.task_status
    task_results := m.task_result
    task_errors := m.task_error }

/-- One public mutating call on the store. -/
inductive Op where
  | store (tasks : List (TaskId × JDict)) : Op
  | update (statuses : List StatusEntry) : Op
  | clearAll : Op
  | clearSome (ids : List TaskId) : Op
deriving DecidableEq, Repr

/-- Apply one store operation. -/
def applyOp (m : SQLiteMemory) : Op → SQLiteMemory
  | Op.store tasks => store_tasks m tasks
  | Op.update statuses => update_task_statuses m statuses
  | Op.clearAll => clear m
  | Op.clearSome ids => clear_tasks m ids

/-- Apply a sequence of store operations in order. -/
def applyOps (m : SQLiteMemory) (ops : List Op) : SQLiteMemory :=
  ops.foldl applyOp m

/-- States reachable from a fresh database by public store operations. -/
def Reachable (m : SQLiteMemory) : Prop :=
  ∃ ops : List Op, m = applyOps emptyMemory ops

/-! ## The executor (`local_threaded_executor.py`) -/

/-- A task as the executor sees it: a stable id (`task.get_id()`) and a
zero-argument invocation (`task()`) that returns a serializable value or
raises with message `str(e)`. -/
structure Task where
  id : TaskId
  invoke : Except String JDict
deriving Repr

/-- What `run()` did: the final store, the tasks submitted to the pool,
whether the thread pool was created at all, and the printed lines in
order. -/
structure RunResult where
  memory : SQLiteMemory
  dispatched : List Task
  poolCreated : Bool
  printed : List String
deriving Repr

/-- The three lines printed by `LocalThreadedExecutor.status_summary`,
with counts read fresh from the store. -/
def status_summary (m : SQLiteMemory) : List String :=
  [ "Pending tasks: " ++ toString (get_pending_tasks m).length
  , "Completed tasks: " ++ toString (get_completed_tasks m).length
  , "Failed tasks: " ++ toString (get_failed_tasks m).length ]

/-- Record one harvested completion: on success
`update_task_statuses [(id, 'completed', result, None)]`, on a raised
fault `update_task_statuses [(id, 'failed', None, str(e))]`. -/
def recordOutcome (m : SQLiteMemory) (t : Task) : SQLiteMemory :=
  match t.invoke with
  | Except.ok r =>
      update_task_statuses m [{ task_id := t.id, status := "completed", result := some r, error := none }]
  | Except.error e =>
      update_task_statuses m [{ task_id := t.id, status := "failed", result := none, error := some e }]

/-- The `as_completed` harvesting loop: record each completion in
completion order, checking `stop_all_when` after each one; when it fires
the loop prints the emergency message and breaks, leaving later
completions unharvested.  `k` counts the checks made so far. -/
def harvestLoop (m : SQLiteMemory) (stop : Option (Nat → Bool)) :
    List Task → Nat → SQLiteMemory × List String
  | [], _ => (m, [])
  | t :: rest, k =>
      let m1 := recordOutcome m t
      if (stop.map (fun f => f k)).getD false then
        (m1, ["Emergency stop condition met. Halting execution."])
      else
        harvestLoop m1 stop rest (k + 1)

/-- `LocalThreadedExecutor.run`.  `tasks` is the supplied collection in
order; `completionOrder` is the order in which the pool's futures
complete, a permutation of the dispatched subset (the driver harvests one
completion at a time, so a run is the fold of `recordOutcome` over that
order); `stop` gives the value `stop_all_when()` returns at each check
(`none` embeds `stop_all_when = None`). -/
def run (tasks : List Task) (completionOrder : List Task)
    (stop : Option (Nat → Bool)) (m : SQLiteMemory) : RunResult :=
  let pending_task_ids := get_pending_tasks m
  let tasks_to_run := tasks.filter (fun t => pending_task_ids.contains t.id)
  if tasks_to_run.isEmpty then
    { memory := m, dispatched := [], poolCreated := false
      printed := ["All tasks are already completed."] }
  else
    let res := harvestLoop m stop completionOrder 0
    { memory := res.1, dispatched := tasks_to_run, poolCreated := true
      printed := res.2 ++ status_summary res.1 }

/-! ## Auxiliary definitions used by the theorems -/

/-- Whether one store operation supplies a truthy result for `id`
(only `update_task_statuses` can). -/
def opGivesResult : Op → TaskId → Bool
  | Op.update es, id => es.any (fun e => e.task_id == id && truthyDict e.result)
  | _, _ => false

/-- Whether one store operation supplies a truthy error for `id`. -/
def opGivesError : Op → TaskId → Bool
  | Op.update es, id => es.any (fun e => e.task_id == id && truthyStr e.error)
  | _, _ => false

/-- Whether some operation of the sequence supplies a truthy result for
`id`. -/
def gaveResult (ops : List Op) (id : TaskId) : Bool :=
  ops.any (fun op => opGivesResult op id)

/-- Whether some operation of the sequence supplies a truthy error for
`id`. -/
def gaveError (ops : List Op) (id : TaskId) : Bool :=
  ops.any (fun op => opGivesError op id)

/-- Modelled from the spec: the number of records whose status is
`pending`. -/
def pendingCount (m : SQLiteMemory) : Nat :=
  (m.task_status.filter (fun r => r.2 = "pending")).length

/-- Modelled from the spec: the number of records whose status is
`completed`. -/
def completedCount (m : SQLiteMemory) : Nat :=
  (m.task_status.filter (fun r => r.2 = "completed")).length

/-- Modelled from the spec (amended): the number of records whose status
is `failed` and that also have a stored error — the population the failed
line of the summary actually counts, because `get_failed_tasks` is an
inner join with `task_error`. -/
def failedWithErrorCount (m : SQLiteMemory) : Nat :=
  (m.task_status.filter
    (fun r => r.2 = "failed" && (tableLookup m.task_error r.1).isSome)).length

/-- The status string the harvesting loop writes for a task: `'completed'`
on a normal return, `'failed'` on a raised fault. -/
def outcomeStatus (u : Task) : String :=
  match u.invoke with
  | Except.ok _ => "completed"
  | Except.error _ => "failed"

/-! ## Table-level lemmas -/

theorem tableLookup_append {α : Type} (t1 t2 : Table α) (id : TaskId) :
    tableLookup (t1 ++ t2) id =
      match tableLookup t1 id with
      | some v => some v
      | none => tableLookup t2 id := by
  induction t1 with
  | nil => simp [tableLookup]
  | cons p rest ih =>
      obtain ⟨k, v⟩ := p
      by_cases hk : k = id <;> simp [tableLookup, hk, ih]

theorem tableLookup_insertOrIgnore_of_some {α : Type} {t : Table α} {id : TaskId} {v : α}
    (k : TaskId) (w : α) (h : tableLookup t id = some v) :
    tableLookup (insertOrIgnore t k w) id = some v := by
  unfold insertOrIgnore
  split
  · exact h
  · rw [tableLookup_append, h]

theorem tableLookup_insertOrIgnore_ne {α : Type} (t : Table α) {k id : TaskId} (w : α)
    (h : k ≠ id) : tableLookup (insertOrIgnore t k w) id = tableLookup t id := by
  unfold insertOrIgnore
  split
  · rfl
  · rw [tableLookup_append]
    cases hl : tableLookup t id <;> simp [tableLookup, h]

theorem tableLookup_cons {α : Type} (k : TaskId) (v : α) (t : Table α) (id : TaskId) :
    tableLookup ((k, v) :: t) id = if k = id then some v else tableLookup t id := rfl

theorem deleteWhere_nil {α : Type} (id : TaskId) : deleteWhere ([] : Table α) id = [] := rfl

theorem deleteWhere_cons {α : Type} (k : TaskId) (v : α) (t : Table α) (id : TaskId) :
    deleteWhere ((k, v) :: t) id =
      if k = id then deleteWhere t id else (k, v) :: deleteWhere t id := by
  by_cases h : k = id <;> simp [deleteWhere, List.filter_cons, h]

theorem updateWhere_nil {α : Type} (id : TaskId) (v : α) :
    updateWhere ([] : Table α) id v = [] := rfl

theorem updateWhere_cons {α : Type} (k : TaskId) (w : α) (t : Table α) (id : TaskId) (v : α) :
    updateWhere ((k, w) :: t) id v =
      (if k = id then (k, v) else (k, w)) :: updateWhere t id v := by
  by_cases h : k = id <;> simp [updateWhere, h]

theorem tableLookup_deleteWhere_self {α : Type} (t : Table α) (id : TaskId) :
    tableLookup (deleteWhere t id) id = none := by
  induction t with
  | nil => rfl
  | cons p rest ih =>
      obtain ⟨k, v⟩ := p
      rw [deleteWhere_cons]
      by_cases hk : k = id
      · rw [if_pos hk]; exact ih
      · rw [if_neg hk, tableLookup_cons, if_neg hk]; exact ih

theorem tableLookup_deleteWhere_ne {α : Type} (t : Table α) {k id : TaskId} (h : k ≠ id) :
    tableLookup (deleteWhere t k) id = tableLookup t id := by
  induction t with
  | nil => rfl
  | cons p rest ih =>
      obtain ⟨k', v⟩ := p
      rw [deleteWhere_cons]
      by_cases hk' : k' = k
      · rw [if_pos hk', tableLookup_cons, if_neg (hk' ▸ h)]; exact ih
      · rw [if_neg hk', tableLookup_cons, tableLookup_cons]
        by_cases hid : k' = id
        · rw [if_pos hid, if_pos hid]
        · rw [if_neg hid, if_neg hid]; exact ih

theorem tableLookup_insertOrReplace_self {α : Type} (t : Table α) (id : TaskId) (v : α) :
    tableLookup (insertOrReplace t id v) id = some v := by
  unfold insertOrReplace
  rw [tableLookup_append, tableLookup_deleteWhere_self]
  simp [tableLookup]

theorem tableLookup_insertOrReplace_ne {α : Type} (t : Table α) {k id : TaskId} (v : α)
    (h : k ≠ id) : tableLookup (insertOrReplace t k v) id = tableLookup t id := by
  unfold insertOrReplace
  rw [tableLookup_append, tableLookup_deleteWhere_ne t h]
  cases hl : tableLookup t id <;> simp [tableLookup, h]

theorem tableLookup_updateWhere_ne {α : Type} (t : Table α) {k id : TaskId} (v : α)
    (h : k ≠ id) : tableLookup (updateWhere t k v) id = tableLookup t id := by
  induction t with
  | nil => rfl
  | cons p rest ih =>
      obtain ⟨k', w⟩ := p
      rw [updateWhere_cons]
      by_cases hk' : k' = k
      · rw [if_pos hk', tableLookup_cons, tableLookup_cons]
        rw [if_neg (hk' ▸ h), if_neg (hk' ▸ h)]
        exact ih
      · rw [if_neg hk', tableLookup_cons, tableLookup_cons]
        by_cases hid : k' = id
        · rw [if_pos hid, if_pos hid]
        · rw [if_neg hid, if_neg hid]; exact ih

theorem tableLookup_updateWhere_self {α : Type} (t : Table α) (id : TaskId) (v : α) :
    tableLookup (updateWhere t id v) id = (tableLookup t id).map (fun _ => v) := by
  induction t with
  | nil => rfl
  | cons p rest ih =>
      obtain ⟨k', w⟩ := p
      rw [updateWhere_cons]
      by_cases hk' : k' = id
      · rw [if_pos hk', tableLookup_cons, tableLookup_cons, if_pos hk', if_pos hk']
        rfl
      · rw [if_neg hk', tableLookup_cons, tableLookup_cons, if_neg hk', if_neg hk']
        exact ih

/-- A lookup is `none` exactly when no row has the key. -/
theorem tableLookup_eq_none_iff {α : Type} (t : Table α) (id : TaskId) :
    tableLookup t id = none ↔ ∀ r ∈ t, r.1 ≠ id := by
  induction t with
  | nil => simp [tableLookup]
  | cons p rest ih =>
      obtain ⟨k, v⟩ := p
      by_cases hk : k = id <;> simp [tableLookup, hk, ih]

/-- A lookup succeeds exactly when some row has the key. -/
theorem tableLookup_isSome_iff_mem {α : Type} (t : Table α) (id : TaskId) :
    (tableLookup t id).isSome = true ↔ id ∈ t.map Prod.fst := by
  rw [← Decidable.not_iff_not, Option.not_isSome_iff_eq_none, tableLookup_eq_none_iff]
  constructor
  · intro h hmem
    obtain ⟨r, hr, hfst⟩ := List.mem_map.mp hmem
    exact h r hr hfst
  · intro h r hr hfst
    exact h (List.mem_map.mpr ⟨r, hr, hfst⟩)

/-! ## Primary-key uniqueness (`task_id TEXT PRIMARY KEY`) -/

/-- The PRIMARY KEY constraint: a table's keys are pairwise distinct. -/
def KeysOk {α : Type} (t : Table α) : Prop := (t.map Prod.fst).Nodup

theorem keys_deleteWhere {α : Type} (t : Table α) (id : TaskId) :
    (deleteWhere t id).map Prod.fst = (t.map Prod.fst).filter (fun k => k ≠ id) := by
  induction t with
  | nil => rfl
  | cons p rest ih =>
      obtain ⟨k, v⟩ := p
      rw [deleteWhere_cons]
      by_cases hk : k = id <;> simp [hk, List.filter_cons, ih]

theorem keys_updateWhere {α : Type} (t : Table α) (id : TaskId) (v : α) :
    (updateWhere t id v).map Prod.fst = t.map Prod.fst := by
  induction t with
  | nil => rfl
  | cons p rest ih =>
      obtain ⟨k, w⟩ := p
      rw [updateWhere_cons]
      by_cases hk : k = id <;> simp [hk, ih]

theorem KeysOk_deleteWhere {α : Type} {t : Table α} (h : KeysOk t) (id : TaskId) :
    KeysOk (deleteWhere t id) := by
  unfold KeysOk
  rw [keys_deleteWhere]
  exact h.filter _

theorem KeysOk_updateWhere {α : Type} {t : Table α} (h : KeysOk t) (id : TaskId) (v : α) :
    KeysOk (updateWhere t id v) := by
  unfold KeysOk
  rw [keys_updateWhere]
  exact h

theorem KeysOk_insertOrReplace {α : Type} {t : Table α} (h : KeysOk t) (id : TaskId) (v : α) :
    KeysOk (insertOrReplace t id v) := by
  unfold KeysOk insertOrReplace
  rw [List.map_append, List.nodup_append]
  refine ⟨KeysOk_deleteWhere h id, by simp, ?_⟩
  intro a ha hb
  simp at hb
  subst hb
  rw [keys_deleteWhere] at ha
  have := List.of_mem_filter ha
  simp at this

theorem KeysOk_insertOrIgnore {α : Type} {t : Table α} (h : KeysOk t) (id : TaskId) (v : α) :
    KeysOk (insertOrIgnore t id v) := by
  unfold KeysOk insertOrIgnore
  split
  · exact h
  · next hnone =>
      rw [List.map_append, List.nodup_append]
      refine ⟨h, by simp, ?_⟩
      intro a ha hb
      simp at hb
      subst hb
      rw [Option.not_isSome_iff_eq_none] at hnone
      rw [tableLookup_eq_none_iff] at hnone
      obtain ⟨r, hr, hfst⟩ := List.mem_map.mp ha
      exact hnone r hr hfst

theorem lookup_isSome_updateWhere {α : Type} (t : Table α) (k id : TaskId) (v : α) :
    (tableLookup (updateWhere t k v) id).isSome = (tableLookup t id).isSome := by
  by_cases hk : k = id
  · subst hk
    rw [tableLookup_updateWhere_self]
    cases tableLookup t k <;> rfl
  · rw [tableLookup_updateWhere_ne t v hk]

theorem lookup_isSome_insertOrIgnore {α : Type} (t : Table α) (k id : TaskId) (v : α) :
    (tableLookup (insertOrIgnore t k v) id).isSome = true ↔
      (tableLookup t id).isSome = true ∨ k = id := by
  unfold insertOrIgnore
  split
  · next hsome =>
      constructor
      · intro h; exact Or.inl h
      · intro h
        cases h with
        | inl h => exact h
        | inr h => subst h; exact hsome
  · rw [tableLookup_append]
    cases hl : tableLookup t id
    · by_cases hk : k = id <;> simp [tableLookup, hk]
    · simp

/-! ## `store_tasks` lemmas -/

theorem foldl_insertOrIgnore_of_some {α β : Type} (key : β → TaskId) (val : β → α)
    (l : List β) {t : Table α} {id : TaskId} {v : α} (h : tableLookup t id = some v) :
    tableLookup (l.foldl (fun t b => insertOrIgnore t (key b) (val b)) t) id = some v := by
  induction l generalizing t with
  | nil => exact h
  | cons b rest ih => exact ih (tableLookup_insertOrIgnore_of_some (key b) (val b) h)

theorem foldl_insertOrIgnore_ne {α β : Type} (key : β → TaskId) (val : β → α)
    (l : List β) (t : Table α) {id : TaskId} (h : ∀ b ∈ l, key b ≠ id) :
    tableLookup (l.foldl (fun t b => insertOrIgnore t (key b) (val b)) t) id =
      tableLookup t id := by
  induction l generalizing t with
  | nil => rfl
  | cons b rest ih =>
      rw [List.foldl_cons, ih _ (fun b hb => h b (List.mem_cons_of_mem _ hb)),
        tableLookup_insertOrIgnore_ne t (val b) (h b (List.mem_cons_self _ _))]

theorem lookup_isSome_foldl_insertOrIgnore {α β : Type} (key : β → TaskId) (val : β → α)
    (l : List β) (t : Table α) (id : TaskId) :
    (tableLookup (l.foldl (fun t b => insertOrIgnore t (key b) (val b)) t) id).isSome = true ↔
      (tableLookup t id).isSome = true ∨ ∃ b ∈ l, key b = id := by
  induction l generalizing t with
  | nil => simp
  | cons b rest ih =>
      rw [List.foldl_cons, ih, lookup_isSome_insertOrIgnore]
      constructor
      · rintro (⟨h | h⟩ | ⟨c, hc, hk⟩)
        · exact Or.inl h
        · exact Or.inr ⟨b, List.mem_cons_self _ _, h⟩
        · exact Or.inr ⟨c, List.mem_cons_of_mem _ hc, hk⟩
      · rintro (h | ⟨c, hc, hk⟩)
        · exact Or.inl (Or.inl h)
        · rcases List.mem_cons.mp hc with rfl | hc
          · exact Or.inl (Or.inr hk)
          · exact Or.inr ⟨c, hc, hk⟩

theorem KeysOk_foldl_insertOrIgnore {α β : Type} (key : β → TaskId) (val : β → α)
    (l : List β) {t : Table α} (h : KeysOk t) :
    KeysOk (l.foldl (fun t b => insertOrIgnore t (key b) (val b)) t) := by
  induction l generalizing t with
  | nil => exact h
  | cons b rest ih => exact ih (KeysOk_insertOrIgnore h (key b) (val b))

theorem store_tasks_task_result (m : SQLiteMemory) (tasks : List (TaskId × JDict)) :
    (store_tasks m tasks).task_result = m.task_result := rfl

theorem store_tasks_task_error (m : SQLiteMemory) (tasks : List (TaskId × JDict)) :
    (store_tasks m tasks).task_error = m.task_error := rfl

/-- A definition row already present survives any later `store_tasks`. -/
theorem store_tasks_definition_of_some {m : SQLiteMemory} {id : TaskId} {d : JDict}
    (tasks : List (TaskId × JDict)) (h : tableLookup m.task_definition id = some d) :
    tableLookup (store_tasks m tasks).task_definition id = some d :=
  foldl_insertOrIgnore_of_some Prod.fst Prod.snd tasks h

/-- A status row already present survives any later `store_tasks`
unchanged. -/
theorem store_tasks_status_of_some {m : SQLiteMemory} {id : TaskId} {st : String}
    (tasks : List (TaskId × JDict)) (h : tableLookup m.task_status id = some st) :
    tableLookup (store_tasks m tasks).task_status id = some st :=
  foldl_insertOrIgnore_of_some Prod.fst (fun _ => "pending") tasks h

/-! ## `update_task_statuses` lemmas -/

theorem applyResultError_task_definition (m : SQLiteMemory) (e : StatusEntry) :
    (applyResultError m e).task_definition = m.task_definition := by
  unfold applyResultError
  cases e.result <;> cases e.error <;> dsimp <;> split <;> try split
  all_goals rfl

theorem applyResultError_task_status (m : SQLiteMemory) (e : StatusEntry) :
    (applyResultError m e).task_status = m.task_status := by
  unfold applyResultError
  cases e.result <;> cases e.error <;> dsimp <;> split <;> try split
  all_goals rfl

/-- The result table after one entry of the second phase: replaced when
the entry carries a truthy result, untouched otherwise. -/
theorem applyResultError_task_result (m : SQLiteMemory) (e : StatusEntry) :
    (applyResultError m e).task_result =
      if truthyDict e.result then
        insertOrReplace m.task_result e.task_id ((e.result).getD [])
      else m.task_result := by
  cases hr : e.result with
  | none =>
      cases he : e.error with
      | none => simp [applyResultError, hr, he, truthyDict]
      | some s =>
          by_cases hs : s.isEmpty <;>
            simp [applyResultError, hr, he, hs, truthyDict]
  | some d =>
      cases he : e.error with
      | none =>
          by_cases hd : d.isEmpty <;>
            simp [applyResultError, hr, he, hd, truthyDict]
      | some s =>
          by_cases hd : d.isEmpty <;> by_cases hs : s.isEmpty <;>
            simp [applyResultError, hr, he, hd, hs, truthyDict]

/-- The error table after one entry of the second phase: replaced when the
entry carries a truthy error, untouched otherwise. -/
theorem applyResultError_task_error (m : SQLiteMemory) (e : StatusEntry) :
    (applyResultError m e).task_error =
      if truthyStr e.error then
        insertOrReplace m.task_error e.task_id ((e.error).getD "")
      else m.task_error := by
  cases hr : e.result with
  | none =>
      cases he : e.error with
      | none => simp [applyResultError, hr, he, truthyStr]
      | some s =>
          by_cases hs : s.isEmpty <;>
            simp [applyResultError, hr, he, hs, truthyStr]
  | some d =>
      cases he : e.error with
      | none =>
          by_cases hd : d.isEmpty <;>
            simp [applyResultError, hr, he, hd, truthyStr]
      | some s =>
          by_cases hd : d.isEmpty <;> by_cases hs : s.isEmpty <;>
            simp [applyResultError, hr, he, hd, hs, truthyStr]

theorem foldl_applyResultError_task_definition (es : List StatusEntry) (m : SQLiteMemory) :
    (es.foldl applyResultError m).task_definition = m.task_definition := by
  induction es generalizing m with
  | nil => rfl
  | cons e rest ih => rw [List.foldl_cons, ih, applyResultError_task_definition]

theorem foldl_applyResultError_task_status (es : List StatusEntry) (m : SQLiteMemory) :
    (es.foldl applyResultError m).task_status = m.task_status := by
  induction es generalizing m with
  | nil => rfl
  | cons e rest ih => rw [List.foldl_cons, ih, applyResultError_task_status]

theorem update_task_statuses_task_definition (m : SQLiteMemory) (es : List StatusEntry) :
    (update_task_statuses m es).task_definition = m.task_definition := by
  unfold update_task_statuses
  rw [foldl_applyResultError_task_definition]

theorem update_task_statuses_task_status (m : SQLiteMemory) (es : List StatusEntry) :
    (update_task_statuses m es).task_status =
      es.foldl (fun t e => updateWhere t e.task_id e.status) m.task_status := by
  unfold update_task_statuses
  rw [foldl_applyResultError_task_status]

theorem statusFold_ne (es : List StatusEntry) (t : Table String) {id : TaskId}
    (h : ∀ e ∈ es, e.task_id ≠ id) :
    tableLookup (es.foldl (fun t e => updateWhere t e.task_id e.status) t) id =
      tableLookup t id := by
  induction es generalizing t with
  | nil => rfl
  | cons e rest ih =>
      rw [List.foldl_cons, ih _ (fun e he => h e (List.mem_cons_of_mem _ he)),
        tableLookup_updateWhere_ne t e.status (h e (List.mem_cons_self _ _))]

theorem statusFold_isSome (es : List StatusEntry) (t : Table String) (id : TaskId) :
    (tableLookup (es.foldl (fun t e => updateWhere t e.task_id e.status) t) id).isSome =
      (tableLookup t id).isSome := by
  induction es generalizing t with
  | nil => rfl
  | cons e rest ih => rw [List.foldl_cons, ih, lookup_isSome_updateWhere]

/-- With pairwise-distinct ids in the batch, the status fold writes each
entry's status onto its id's existing row. -/
theorem statusFold_self {es : List StatusEntry} {e : StatusEntry}
    (t : Table String) (hnd : (es.map StatusEntry.task_id).Nodup) (he : e ∈ es) :
    tableLookup (es.foldl (fun t e => updateWhere t e.task_id e.status) t) e.task_id =
      (tableLookup t e.task_id).map (fun _ => e.status) := by
  induction es generalizing t with
  | nil => cases he
  | cons f rest ih =>
      rw [List.map_cons, List.nodup_cons] at hnd
      rcases List.mem_cons.mp he with rfl | he'
      · rw [List.foldl_cons, statusFold_ne]
        · exact tableLookup_updateWhere_self t e.task_id e.status
        · intro g hg hgid
          exact hnd.1 (hgid ▸ List.mem_map_of_mem StatusEntry.task_id hg)
      · rw [List.foldl_cons, ih _ hnd.2 he',
          tableLookup_updateWhere_ne]
        intro hfe
        exact hnd.1 (hfe ▸ List.mem_map_of_mem StatusEntry.task_id he')

theorem resultFold_ne (es : List StatusEntry) (m : SQLiteMemory) {id : TaskId}
    (h : ∀ e ∈ es, e.task_id ≠ id) :
    tableLookup (es.foldl applyResultError m).task_result id =
      tableLookup m.task_result id := by
  induction es generalizing m with
  | nil => rfl
  | cons e rest ih =>
      rw [List.foldl_cons, ih _ (fun e he => h e (List.mem_cons_of_mem _ he)),
        applyResultError_task_result]
      split
      · rw [tableLookup_insertOrReplace_ne _ _ (h e (List.mem_cons_self _ _))]
      · rfl

theorem errorFold_ne (es : List StatusEntry) (m : SQLiteMemory) {id : TaskId}
    (h : ∀ e ∈ es, e.task_id ≠ id) :
    tableLookup (es.foldl applyResultError m).task_error id =
      tableLookup m.task_error id := by
  induction es generalizing m with
  | nil => rfl
  | cons e rest ih =>
      rw [List.foldl_cons, ih _ (fun e he => h e (List.mem_cons_of_mem _ he)),
        applyResultError_task_error]
      split
      · rw [tableLookup_insertOrReplace_ne _ _ (h e (List.mem_cons_self _ _))]
      · rfl

/-- With pairwise-distinct ids, each entry's truthy result lands in the
result table and a falsy one leaves the prior value. -/
theorem resultFold_self {es : List StatusEntry} {e : StatusEntry}
    (m : SQLiteMemory) (hnd : (es.map StatusEntry.task_id).Nodup) (he : e ∈ es) :
    tableLookup (es.foldl applyResultError m).task_result e.task_id =
      (if truthyDict e.result then e.result
       else tableLookup m.task_result e.task_id) := by
  induction es generalizing m with
  | nil => cases he
  | cons f rest ih =>
      rw [List.map_cons, List.nodup_cons] at hnd
      rcases List.mem_cons.mp he with rfl | he'
      · rw [List.foldl_cons, resultFold_ne, applyResultError_task_result]
        · cases hr : e.result with
          | none => simp [truthyDict]
          | some d =>
              by_cases hd : d.isEmpty <;>
                simp [truthyDict, hd, tableLookup_insertOrReplace_self]
        · intro g hg hgid
          exact hnd.1 (hgid ▸ List.mem_map_of_mem StatusEntry.task_id hg)
      · rw [List.foldl_cons, ih _ hnd.2 he', applyResultError_task_result]
        have hne : f.task_id ≠ e.task_id := by
          intro hfe
          exact hnd.1 (hfe ▸ List.mem_map_of_mem StatusEntry.task_id he')
        by_cases ht : truthyDict e.result
        · rw [if_pos ht, if_pos ht]
        · rw [if_neg ht, if_neg ht]
          split
          · rw [tableLookup_insertOrReplace_ne _ _ hne]
          · rfl

/-- With pairwise-distinct ids, each entry's truthy error lands in the
error table and a falsy one leaves the prior value. -/
theorem errorFold_self {es : List StatusEntry} {e : StatusEntry}
    (m : SQLiteMemory) (hnd : (es.map StatusEntry.task_id).Nodup) (he : e ∈ es) :
    tableLookup (es.foldl applyResultError m).task_error e.task_id =
      (if truthyStr e.error then e.error
       else tableLookup m.task_error e.task_id) := by
  induction es generalizing m with
  | nil => cases he
  | cons f rest ih =>
      rw [List.map_cons, List.nodup_cons] at hnd
      rcases List.mem_cons.mp he with rfl | he'
      · rw [List.foldl_cons, errorFold_ne, applyResultError_task_error]
        · cases hr : e.error with
          | none => simp [truthyStr]
          | some s =>
              by_cases hs : s.isEmpty <;>
                simp [truthyStr, hs, tableLookup_insertOrReplace_self]
        · intro g hg hgid
          exact hnd.1 (hgid ▸ List.mem_map_of_mem StatusEntry.task_id hg)
      · rw [List.foldl_cons, ih _ hnd.2 he', applyResultError_task_error]
        have hne : f.task_id ≠ e.task_id := by
          intro hfe
          exact hnd.1 (hfe ▸ List.mem_map_of_mem StatusEntry.task_id he')
        by_cases ht : truthyStr e.error
        · rw [if_pos ht, if_pos ht]
        · rw [if_neg ht, if_neg ht]
          split
          · rw [tableLookup_insertOrReplace_ne _ _ hne]
          · rfl

/-! ## `clear_tasks` lemmas -/

/-- The four tables evolve independently under `clear_tasks`. -/
theorem clear_tasks_eq (m : SQLiteMemory) (ids : List TaskId) :
    clear_tasks m ids =
      { task_definition := ids.foldl deleteWhere m.task_definition
        task_status := ids.foldl deleteWhere m.task_status
        task_result := ids.foldl deleteWhere m.task_result
        task_error := ids.foldl deleteWhere m.task_error } := by
  induction ids generalizing m with
  | nil => rfl
  | cons i rest ih => rw [clear_tasks, List.foldl_cons] at *; exact ih _

theorem foldl_deleteWhere_of_not_mem {α : Type} (ids : List TaskId) (t : Table α)
    {id : TaskId} (h : id ∉ ids) :
    tableLookup (ids.foldl deleteWhere t) id = tableLookup t id := by
  induction ids generalizing t with
  | nil => rfl
  | cons i rest ih =>
      have hne : i ≠ id := by
        intro hi
        exact h (hi ▸ List.mem_cons_self i rest)
      rw [List.foldl_cons, ih _ (fun hm => h (List.mem_cons_of_mem _ hm)),
        tableLookup_deleteWhere_ne t hne]

theorem foldl_deleteWhere_of_mem {α : Type} (ids : List TaskId) (t : Table α)
    {id : TaskId} (h : id ∈ ids) :
    tableLookup (ids.foldl deleteWhere t) id = none := by
  induction ids generalizing t with
  | nil => cases h
  | cons i rest ih =>
      rw [List.foldl_cons]
      by_cases hr : id ∈ rest
      · exact ih _ hr
      · have hi : id = i := by
          rcases List.mem_cons.mp h with hi | hr'
          · exact hi
          · exact absurd hr' hr
        rw [foldl_deleteWhere_of_not_mem _ _ hr, hi, tableLookup_deleteWhere_self]

theorem KeysOk_foldl_deleteWhere {α : Type} (ids : List TaskId) {t : Table α}
    (h : KeysOk t) : KeysOk (ids.foldl deleteWhere t) := by
  induction ids generalizing t with
  | nil => exact h
  | cons i rest ih => exact ih (KeysOk_deleteWhere h i)

/-! ## The store invariant and reachability -/

/-- Invariant of every reachable store state: the PRIMARY KEY constraint
on each table, and every defined task has a status row (`store_tasks`
creates both together, `clear`/`clear_tasks` remove both together, and
`update_task_statuses` never deletes a status row). -/
def MemInv (m : SQLiteMemory) : Prop :=
  KeysOk m.task_definition ∧ KeysOk m.task_status ∧ KeysOk m.task_result ∧
    KeysOk m.task_error ∧
    ∀ id, (tableLookup m.task_definition id).isSome = true →
      (tableLookup m.task_status id).isSome = true

theorem MemInv_empty : MemInv emptyMemory := by
  refine ⟨List.nodup_nil, List.nodup_nil, List.nodup_nil, List.nodup_nil, ?_⟩
  intro id h
  cases h

theorem MemInv_store_tasks {m : SQLiteMemory} (h : MemInv m)
    (tasks : List (TaskId × JDict)) : MemInv (store_tasks m tasks) := by
  obtain ⟨hd, hs, hr, he, himp⟩ := h
  refine ⟨KeysOk_foldl_insertOrIgnore _ _ _ hd, KeysOk_foldl_insertOrIgnore _ _ _ hs,
    hr, he, ?_⟩
  intro id hdef
  have hiff := (lookup_isSome_foldl_insertOrIgnore Prod.fst Prod.snd tasks
    m.task_definition id).mp hdef
  refine (lookup_isSome_foldl_insertOrIgnore Prod.fst (fun _ => "pending") tasks
    m.task_status id).mpr ?_
  cases hiff with
  | inl hbefore => exact Or.inl (himp id hbefore)
  | inr hmem => exact Or.inr hmem

theorem KeysOk_statusFold (es : List StatusEntry) {t : Table String} (h : KeysOk t) :
    KeysOk (es.foldl (fun t e => updateWhere t e.task_id e.status) t) := by
  induction es generalizing t with
  | nil => exact h
  | cons e rest ih => exact ih (KeysOk_updateWhere h e.task_id e.status)

theorem KeysOk_resultFold (es : List StatusEntry) {m : SQLiteMemory}
    (h : KeysOk m.task_result) : KeysOk (es.foldl applyResultError m).task_result := by
  induction es generalizing m with
  | nil => exact h
  | cons e rest ih =>
      rw [List.foldl_cons]
      refine ih ?_
      rw [applyResultError_task_result]
      split
      · exact KeysOk_insertOrReplace h _ _
      · exact h

theorem KeysOk_errorFold (es : List StatusEntry) {m : SQLiteMemory}
    (h : KeysOk m.task_error) : KeysOk (es.foldl applyResultError m).task_error := by
  induction es generalizing m with
  | nil => exact h
  | cons e rest ih =>
      rw [List.foldl_cons]
      refine ih ?_
      rw [applyResultError_task_error]
      split
      · exact KeysOk_insertOrReplace h _ _
      · exact h

theorem MemInv_update_task_statuses {m : SQLiteMemory} (h : MemInv m)
    (es : List StatusEntry) : MemInv (update_task_statuses m es) := by
  obtain ⟨hd, hs, hr, he, himp⟩ := h
  have htr : (update_task_statuses m es).task_result =
      (es.foldl applyResultError
        { m with task_status :=
            es.foldl (fun t e => updateWhere t e.task_id e.status) m.task_status }).task_result := rfl
  have hte : (update_task_statuses m es).task_error =
      (es.foldl applyResultError
        { m with task_status :=
            es.foldl (fun t e => updateWhere t e.task_id e.status) m.task_status }).task_error := rfl
  refine ⟨?_, ?_, ?_, ?_, ?_⟩
  · rw [update_task_statuses_task_definition]; exact hd
  · rw [update_task_statuses_task_status]; exact KeysOk_statusFold es hs
  · rw [htr]; exact KeysOk_resultFold es hr
  · rw [hte]; exact KeysOk_errorFold es he
  · intro id hdef
    rw [update_task_statuses_task_definition] at hdef
    rw [update_task_statuses_task_status, statusFold_isSome]
    exact himp id hdef

theorem MemInv_clear (m : SQLiteMemory) : MemInv (clear m) := MemInv_empty

theorem MemInv_clear_tasks {m : SQLiteMemory} (h : MemInv m) (ids : List TaskId) :
    MemInv (clear_tasks m ids) := by
  obtain ⟨hd, hs, hr, he, himp⟩ := h
  rw [clear_tasks_eq]
  refine ⟨KeysOk_foldl_deleteWhere _ hd, KeysOk_foldl_deleteWhere _ hs,
    KeysOk_foldl_deleteWhere _ hr, KeysOk_foldl_deleteWhere _ he, ?_⟩
  intro id hdef
  by_cases hm : id ∈ ids
  · rw [foldl_deleteWhere_of_mem _ _ hm] at hdef
    cases hdef
  · rw [foldl_deleteWhere_of_not_mem _ _ hm] at hdef
    rw [foldl_deleteWhere_of_not_mem _ _ hm]
    exact himp id hdef

theorem MemInv_applyOp {m : SQLiteMemory} (h : MemInv m) (op : Op) :
    MemInv (applyOp m op) := by
  cases op with
  | store tasks => exact MemInv_store_tasks h tasks
  | update es => exact MemInv_update_task_statuses h es
  | clearAll => exact MemInv_clear m
  | clearSome ids => exact MemInv_clear_tasks h ids

theorem MemInv_applyOps {m : SQLiteMemory} (h : MemInv m) (ops : List Op) :
    MemInv (applyOps m ops) := by
  induction ops generalizing m with
  | nil => exact h
  | cons op rest ih => exact ih (MemInv_applyOp h op)

/-- Every reachable state satisfies the store invariant. -/
theorem Reachable.memInv {m : SQLiteMemory} (h : Reachable m) : MemInv m := by
  obtain ⟨ops, rfl⟩ := h
  exact MemInv_applyOps MemInv_empty ops

/-! ## Provenance of stored results and errors -/

theorem resultFold_isSome_source (es : List StatusEntry) (m : SQLiteMemory) (id : TaskId)
    (h : (tableLookup (es.foldl applyResultError m).task_result id).isSome = true) :
    (tableLookup m.task_result id).isSome = true ∨
      es.any (fun e => e.task_id == id && truthyDict e.result) = true := by
  induction es generalizing m with
  | nil => exact Or.inl h
  | cons f rest ih =>
      rw [List.foldl_cons] at h
      rcases ih _ h with h1 | h2
      · rw [applyResultError_task_result] at h1
        by_cases ht : truthyDict f.result
        · rw [if_pos ht] at h1
          by_cases hid : f.task_id = id
          · right
            rw [List.any_cons, Bool.or_eq_true]
            left
            rw [Bool.and_eq_true, beq_iff_eq]
            exact ⟨hid, ht⟩
          · rw [tableLookup_insertOrReplace_ne _ _ hid] at h1
            exact Or.inl h1
        · rw [if_neg ht] at h1
          exact Or.inl h1
      · right
        rw [List.any_cons, Bool.or_eq_true]
        exact Or.inr h2

theorem errorFold_isSome_source (es : List StatusEntry) (m : SQLiteMemory) (id : TaskId)
    (h : (tableLookup (es.foldl applyResultError m).task_error id).isSome = true) :
    (tableLookup m.task_error id).isSome = true ∨
      es.any (fun e => e.task_id == id && truthyStr e.error) = true := by
  induction es generalizing m with
  | nil => exact Or.inl h
  | cons f rest ih =>
      rw [List.foldl_cons] at h
      rcases ih _ h with h1 | h2
      · rw [applyResultError_task_error] at h1
        by_cases ht : truthyStr f.error
        · rw [if_pos ht] at h1
          by_cases hid : f.task_id = id
          · right
            rw [List.any_cons, Bool.or_eq_true]
            left
            rw [Bool.and_eq_true, beq_iff_eq]
            exact ⟨hid, ht⟩
          · rw [tableLookup_insertOrReplace_ne _ _ hid] at h1
            exact Or.inl h1
        · rw [if_neg ht] at h1
          exact Or.inl h1
      · right
        rw [List.any_cons, Bool.or_eq_true]
        exact Or.inr h2

theorem resultPresent_applyOp (m : SQLiteMemory) (op : Op) (id : TaskId)
    (h : (tableLookup (applyOp m op).task_result id).isSome = true) :
    (tableLookup m.task_result id).isSome = true ∨ opGivesResult op id = true := by
  cases op with
  | store tasks =>
      rw [applyOp, store_tasks_task_result] at h
      exact Or.inl h
  | update es =>
      have := resultFold_isSome_source es
        { m with task_status :=
            es.foldl (fun t e => updateWhere t e.task_id e.status) m.task_status } id h
      exact this
  | clearAll => cases h
  | clearSome ids =>
      rw [applyOp, clear_tasks_eq] at h
      by_cases hm : id ∈ ids
      · rw [foldl_deleteWhere_of_mem _ _ hm] at h
        cases h
      · rw [foldl_deleteWhere_of_not_mem _ _ hm] at h
        exact Or.inl h

theorem errorPresent_applyOp (m : SQLiteMemory) (op : Op) (id : TaskId)
    (h : (tableLookup (applyOp m op).task_error id).isSome = true) :
    (tableLookup m.task_error id).isSome = true ∨ opGivesError op id = true := by
  cases op with
  | store tasks =>
      rw [applyOp, store_tasks_task_error] at h
      exact Or.inl h
  | update es =>
      have := errorFold_isSome_source es
        { m with task_status :=
            es.foldl (fun t e => updateWhere t e.task_id e.status) m.task_status } id h
      exact this
  | clearAll => cases h
  | clearSome ids =>
      rw [applyOp, clear_tasks_eq] at h
      by_cases hm : id ∈ ids
      · rw [foldl_deleteWhere_of_mem _ _ hm] at h
        cases h
      · rw [foldl_deleteWhere_of_not_mem _ _ hm] at h
        exact Or.inl h

theorem resultPresent_gave (ops : List Op) (m : SQLiteMemory) (id : TaskId)
    (h : (tableLookup (applyOps m ops).task_result id).isSome = true) :
    (tableLookup m.task_result id).isSome = true ∨ gaveResult ops id = true := by
  induction ops generalizing m with
  | nil => exact Or.inl h
  | cons op rest ih =>
      rcases ih (applyOp m op) h with h1 | h2
      · rcases resultPresent_applyOp m op id h1 with h3 | h4
        · exact Or.inl h3
        · right
          rw [gaveResult, List.any_cons, Bool.or_eq_true]
          exact Or.inl h4
      · right
        rw [gaveResult, List.any_cons, Bool.or_eq_true]
        exact Or.inr h2

theorem errorPresent_gave (ops : List Op) (m : SQLiteMemory) (id : TaskId)
    (h : (tableLookup (applyOps m ops).task_error id).isSome = true) :
    (tableLookup m.task_error id).isSome = true ∨ gaveError ops id = true := by
  induction ops generalizing m with
  | nil => exact Or.inl h
  | cons op rest ih =>
      rcases ih (applyOp m op) h with h1 | h2
      · rcases errorPresent_applyOp m op id h1 with h3 | h4
        · exact Or.inl h3
        · right
          rw [gaveError, List.any_cons, Bool.or_eq_true]
          exact Or.inl h4
      · right
        rw [gaveError, List.any_cons, Bool.or_eq_true]
        exact Or.inr h2

/-! ## Query membership under the key invariant -/

theorem tableLookup_mem {α : Type} {t : Table α} {id : TaskId} {v : α}
    (h : tableLookup t id = some v) : (id, v) ∈ t := by
  induction t with
  | nil => cases h
  | cons p rest ih =>
      obtain ⟨k, w⟩ := p
      rw [tableLookup_cons] at h
      by_cases hk : k = id
      · rw [if_pos hk] at h
        cases h
        exact hk ▸ List.mem_cons_self _ _
      · rw [if_neg hk] at h
        exact List.mem_cons_of_mem _ (ih h)

theorem tableLookup_eq_of_mem_of_nodup {α : Type} {t : Table α} (hk : KeysOk t)
    {id : TaskId} {v : α} (h : (id, v) ∈ t) : tableLookup t id = some v := by
  induction t with
  | nil => cases h
  | cons p rest ih =>
      obtain ⟨k, w⟩ := p
      rw [KeysOk, List.map_cons, List.nodup_cons] at hk
      rcases List.mem_cons.mp h with heq | hmem
      · cases heq
        rw [tableLookup_cons, if_pos rfl]
      · rw [tableLookup_cons]
        by_cases hkid : k = id
        · exfalso
          rw [hkid] at hk
          exact hk.1 (List.mem_map.mpr ⟨(id, v), hmem, rfl⟩)
        · rw [if_neg hkid]
          exact ih hk.2 hmem

/-- Membership in a status-filtered id query is exactly a status lookup,
under the PRIMARY KEY invariant. -/
theorem mem_statusFilter_iff {m : SQLiteMemory} (hk : KeysOk m.task_status)
    (s : String) (id : TaskId) :
    id ∈ (m.task_status.filter (fun r => r.2 = s)).map Prod.fst ↔
      tableLookup m.task_status id = some s := by
  constructor
  · intro h
    obtain ⟨r, hr, hfst⟩ := List.mem_map.mp h
    have hmem := List.mem_of_mem_filter hr
    have hs : r.2 = s := by simpa using List.of_mem_filter hr
    obtain ⟨k, v⟩ := r
    cases hfst
    cases hs
    exact tableLookup_eq_of_mem_of_nodup hk hmem
  · intro h
    refine List.mem_map.mpr ⟨(id, s), ?_, rfl⟩
    refine List.mem_filter.mpr ⟨tableLookup_mem h, by simp⟩

/-- Membership among the failed-query ids is exactly: status `failed` and
an error row present (the inner join). -/
theorem mem_failedIds_iff {m : SQLiteMemory} (hk : KeysOk m.task_status) (id : TaskId) :
    id ∈ (get_failed_tasks m).map Prod.fst ↔
      tableLookup m.task_status id = some "failed" ∧
        (tableLookup m.task_error id).isSome = true := by
  unfold get_failed_tasks
  constructor
  · intro h
    obtain ⟨p, hp, hfst⟩ := List.mem_map.mp h
    obtain ⟨r, hr, hg⟩ := List.mem_filterMap.mp hp
    cases hge : tableLookup m.task_error r.1 with
    | none => rw [hge] at hg; cases hg
    | some err =>
        rw [hge] at hg
        cases hg
        have hmem := List.mem_of_mem_filter hr
        have hs : r.2 = "failed" := by simpa using List.of_mem_filter hr
        obtain ⟨k, v⟩ := r
        cases hs
        dsimp at hfst hge
        subst hfst
        refine ⟨tableLookup_eq_of_mem_of_nodup hk hmem, ?_⟩
        rw [hge]
        rfl
  · rintro ⟨hst, herr⟩
    cases hge : tableLookup m.task_error id with
    | none => rw [hge] at herr; cases herr
    | some err =>
        refine List.mem_map.mpr ⟨(id, err), ?_, rfl⟩
        refine List.mem_filterMap.mpr ⟨(id, "failed"), ?_, ?_⟩
        · exact List.mem_filter.mpr ⟨tableLookup_mem hst, by simp⟩
        · dsimp
          rw [hge]
          rfl

/-! ## Executor lemmas -/

theorem harvestLoop_none (l : List Task) (m : SQLiteMemory) (k : Nat) :
    harvestLoop m none l k = (l.foldl recordOutcome m, []) := by
  induction l generalizing m k with
  | nil => rfl
  | cons t rest ih =>
      rw [harvestLoop, List.foldl_cons]
      simpa using ih (recordOutcome m t) (k + 1)

/-- Recording one completion never touches another id's rows. -/
theorem recordOutcome_frame (m : SQLiteMemory) (u : Task) {id : TaskId}
    (h : u.id ≠ id) :
    tableLookup (recordOutcome m u).task_status id = tableLookup m.task_status id ∧
    tableLookup (recordOutcome m u).task_result id = tableLookup m.task_result id ∧
    tableLookup (recordOutcome m u).task_error id = tableLookup m.task_error id := by
  have frame : ∀ e : StatusEntry, e.task_id = u.id →
      tableLookup (update_task_statuses m [e]).task_status id = tableLookup m.task_status id ∧
      tableLookup (update_task_statuses m [e]).task_result id = tableLookup m.task_result id ∧
      tableLookup (update_task_statuses m [e]).task_error id = tableLookup m.task_error id := by
    intro e he
    have hne : ∀ f ∈ [e], f.task_id ≠ id := by
      intro f hf
      rw [List.mem_singleton] at hf
      subst hf
      rw [he]
      exact h
    refine ⟨?_, ?_, ?_⟩
    · rw [update_task_statuses_task_status]
      exact statusFold_ne [e] m.task_status hne
    · exact resultFold_ne [e] _ hne
    · exact errorFold_ne [e] _ hne
  cases hi : u.invoke with
  | ok r =>
      simp only [recordOutcome, hi]
      exact frame { task_id := u.id, status := "completed", result := some r, error := none } rfl
  | error e =>
      simp only [recordOutcome, hi]
      exact frame { task_id := u.id, status := "failed", result := none, error := some e } rfl

/-- Recording a completion writes exactly the harvested outcome onto the
task's own rows (under Python truthiness for the payloads). -/
theorem recordOutcome_self (m : SQLiteMemory) (u : Task) :
    tableLookup (recordOutcome m u).task_status u.id
        = (tableLookup m.task_status u.id).map (fun _ => outcomeStatus u) ∧
    tableLookup (recordOutcome m u).task_result u.id
        = (match u.invoke with
           | Except.ok r => if r.isEmpty then tableLookup m.task_result u.id else some r
           | Except.error _ => tableLookup m.task_result u.id) ∧
    tableLookup (recordOutcome m u).task_error u.id
        = (match u.invoke with
           | Except.ok _ => tableLookup m.task_error u.id
           | Except.error e => if e.isEmpty then tableLookup m.task_error u.id else some e) := by
  have key : ∀ e : StatusEntry, e.task_id = u.id →
      tableLookup (update_task_statuses m [e]).task_status u.id
          = (tableLookup m.task_status u.id).map (fun _ => e.status) ∧
      tableLookup (update_task_statuses m [e]).task_result u.id
          = (if truthyDict e.result then e.result else tableLookup m.task_result u.id) ∧
      tableLookup (update_task_statuses m [e]).task_error u.id
          = (if truthyStr e.error then e.error else tableLookup m.task_error u.id) := by
    intro e he
    have hnd : (([e] : List StatusEntry).map StatusEntry.task_id).Nodup := by simp
    have hmem : e ∈ [e] := List.mem_singleton.mpr rfl
    refine ⟨?_, ?_, ?_⟩
    · rw [update_task_statuses_task_status, ← he]
      exact statusFold_self m.task_status hnd hmem
    · rw [← he]
      exact resultFold_self _ hnd hmem
    · rw [← he]
      exact errorFold_self _ hnd hmem
  cases hi : u.invoke with
  | ok r =>
      have hk := key { task_id := u.id, status := "completed", result := some r, error := none } rfl
      simp only [recordOutcome, hi, outcomeStatus]
      refine ⟨hk.1, ?_, ?_⟩
      · rw [hk.2.1]
        by_cases hr : r.isEmpty <;> simp [truthyDict, hr]
      · rw [hk.2.2]
        simp [truthyStr]
  | error e =>
      have hk := key { task_id := u.id, status := "failed", result := none, error := some e } rfl
      simp only [recordOutcome, hi, outcomeStatus]
      refine ⟨hk.1, ?_, ?_⟩
      · rw [hk.2.1]
        simp [truthyDict]
      · rw [hk.2.2]
        by_cases hs : e.isEmpty <;> simp [truthyStr, hs]

theorem foldl_recordOutcome_frame (l : List Task) (m : SQLiteMemory) {id : TaskId}
    (h : ∀ u ∈ l, u.id ≠ id) :
    tableLookup (l.foldl recordOutcome m).task_status id = tableLookup m.task_status id ∧
    tableLookup (l.foldl recordOutcome m).task_result id = tableLookup m.task_result id ∧
    tableLookup (l.foldl recordOutcome m).task_error id = tableLookup m.task_error id := by
  induction l generalizing m with
  | nil => exact ⟨rfl, rfl, rfl⟩
  | cons u rest ih =>
      rw [List.foldl_cons]
      have hu := recordOutcome_frame m u (h u (List.mem_cons_self _ _))
      have hr := ih (recordOutcome m u) (fun v hv => h v (List.mem_cons_of_mem _ hv))
      exact ⟨hr.1.trans hu.1, hr.2.1.trans hu.2.1, hr.2.2.trans hu.2.2⟩

/-- Over a completion order with pairwise-distinct ids, each task's rows
end up holding exactly its own harvested outcome. -/
theorem foldl_recordOutcome_self (l : List Task) (m : SQLiteMemory) {u : Task}
    (hnd : (l.map Task.id).Nodup) (hu : u ∈ l) :
    tableLookup (l.foldl recordOutcome m).task_status u.id
        = (tableLookup m.task_status u.id).map (fun _ => outcomeStatus u) ∧
    tableLookup (l.foldl recordOutcome m).task_result u.id
        = (match u.invoke with
           | Except.ok r => if r.isEmpty then tableLookup m.task_result u.id else some r
           | Except.error _ => tableLookup m.task_result u.id) ∧
    tableLookup (l.foldl recordOutcome m).task_error u.id
        = (match u.invoke with
           | Except.ok _ => tableLookup m.task_error u.id
           | Except.error e => if e.isEmpty then tableLookup m.task_error u.id else some e) := by
  induction l generalizing m with
  | nil => cases hu
  | cons f rest ih =>
      rw [List.map_cons, List.nodup_cons] at hnd
      rcases List.mem_cons.mp hu with rfl | hu'
      · have hrest : ∀ v ∈ rest, v.id ≠ u.id := by
          intro v hv hvid
          exact hnd.1 (hvid ▸ List.mem_map.mpr ⟨v, hv, rfl⟩)
        rw [List.foldl_cons]
        have hframe := foldl_recordOutcome_frame rest (recordOutcome m u) hrest
        have hself := recordOutcome_self m u
        exact ⟨hframe.1.trans hself.1, hframe.2.1.trans hself.2.1,
          hframe.2.2.trans hself.2.2⟩
      · have hne : f.id ≠ u.id := by
          intro hfe
          exact hnd.1 (hfe ▸ List.mem_map.mpr ⟨u, hu', rfl⟩)
        rw [List.foldl_cons]
        have hframe := recordOutcome_frame m f hne
        have hrec := ih (recordOutcome m f) hnd.2 hu'
        rw [hframe.1] at hrec
        rw [hframe.2.1] at hrec
        rw [hframe.2.2] at hrec
        exact hrec

theorem length_filterMap_eq_length_filter {α β : Type} (g : α → Option β) (xs : List α) :
    (xs.filterMap g).length = (xs.filter (fun a => (g a).isSome)).length := by
  induction xs with
  | nil => rfl
  | cons a rest ih =>
      cases hg : g a <;> simp [List.filterMap_cons, List.filter_cons, hg, ih]

theorem get_failed_tasks_length (m : SQLiteMemory) :
    (get_failed_tasks m).length = failedWithErrorCount m := by
  unfold get_failed_tasks failedWithErrorCount
  rw [length_filterMap_eq_length_filter, List.filter_filter]
  congr 1
  apply List.filter_congr
  intro r hr
  simp [Option.isSome_map, Bool.and_comm]

/-- `status_summary` emits exactly the three labelled counts; the failed
line counts failed records that also have a stored error. -/
theorem status_summary_eq (m : SQLiteMemory) :
    status_summary m =
      [ "Pending tasks: " ++ toString (pendingCount m)
      , "Completed tasks: " ++ toString (completedCount m)
      , "Failed tasks: " ++ toString (failedWithErrorCount m) ] := by
  unfold status_summary pendingCount completedCount
  rw [get_failed_tasks_length]
  unfold get_pending_tasks get_completed_tasks
  rw [List.length_map, List.length_map]


/-! ## Claims -/

/-- C1 counterexample: starting from an empty store, inserting `t`,
updating it to `completed` with a result, then updating it to `failed`
with an error leaves BOTH a stored result and a stored error for `t`, so
the claimed mutual exclusion fails after this sequence of operations. -/
theorem mutual_exclusion_counterexample :
    (tableLookup (applyOps emptyMemory
      [ Op.store [("t", [])]
      , Op.update [{ task_id := "t", status := "completed",
                     result := some [("ok", JVal.bool true)], error := none }]
      , Op.update [{ task_id := "t", status := "failed",
                     result := none, error := some "boom" }]
      ]).task_result "t").isSome = true ∧
    (tableLookup (applyOps emptyMemory
      [ Op.store [("t", [])]
      , Op.update [{ task_id := "t", status := "completed",
                     result := some [("ok", JVal.bool true)], error := none }]
      , Op.update [{ task_id := "t", status := "failed",
                     result := none, error := some "boom" }]
      ]).task_error "t").isSome = true := by decide

/-- C1 (amended): `update_task_statuses` never clears the other payload
column, so result and error can coexist; mutual exclusion does hold for
every task id after any operation sequence from an empty store that never
supplies both a truthy result and a truthy error for that id. -/
theorem result_error_mutual_exclusion (ops : List Op) (id : TaskId)
    (h : gaveResult ops id = false ∨ gaveError ops id = false) :
    ¬((tableLookup (applyOps emptyMemory ops).task_result id).isSome = true ∧
      (tableLookup (applyOps emptyMemory ops).task_error id).isSome = true) := by
  rintro ⟨hr, he⟩
  rcases resultPresent_gave ops emptyMemory id hr with h1 | h2
  · exact Bool.noConfusion h1
  · rcases errorPresent_gave ops emptyMemory id he with h3 | h4
    · exact Bool.noConfusion h3
    · rcases h with h | h
      · rw [h2] at h
        exact Bool.noConfusion h
      · rw [h4] at h
        exact Bool.noConfusion h

theorem result_error_mutual_exclusion_witness :
    (gaveError [ Op.store [("t", [])]
               , Op.update [{ task_id := "t", status := "completed",
                              result := some [("ok", JVal.bool true)], error := none }]
               ] "t" = false) ∧
    ¬((tableLookup (applyOps emptyMemory
        [ Op.store [("t", [])]
        , Op.update [{ task_id := "t", status := "completed",
                       result := some [("ok", JVal.bool true)], error := none }]
        ]).task_result "t").isSome = true ∧
      (tableLookup (applyOps emptyMemory
        [ Op.store [("t", [])]
        , Op.update [{ task_id := "t", status := "completed",
                       result := some [("ok", JVal.bool true)], error := none }]
        ]).task_error "t").isSome = true) :=
  ⟨by decide,
   result_error_mutual_exclusion
     [ Op.store [("t", [])]
     , Op.update [{ task_id := "t", status := "completed",
                    result := some [("ok", JVal.bool true)], error := none }]
     ] "t" (Or.inr (by decide))⟩

/-- C2 counterexample: after storing a result together with status
`failed` for a known id, `get_task_result` returns the stored result even
though the status is not `completed`, contradicting the claimed absent
marker. -/
theorem get_task_result_counterexample :
    tableLookup (update_task_statuses (store_tasks emptyMemory [("t", [])])
      [{ task_id := "t", status := "failed",
         result := some [("ok", JVal.bool true)], error := some "boom" }]).task_status "t"
      = some "failed" ∧
    get_task_result (update_task_statuses (store_tasks emptyMemory [("t", [])])
      [{ task_id := "t", status := "failed",
         result := some [("ok", JVal.bool true)], error := some "boom" }]) "t"
      = some [("ok", JVal.bool true)] := by decide

/-- C2 (amended): `get_task_result` reads only the `task_result` table,
irrespective of status: it returns the absent marker exactly when no
result row exists — in particular for any id never supplied a truthy
result since the store was fresh — and returns a freshly supplied truthy
result even when the entry's status is not `completed`. -/
theorem get_task_result_by_row :
    (∀ (ops : List Op) (id : TaskId), gaveResult ops id = false →
      get_task_result (applyOps emptyMemory ops) id = none) ∧
    (∀ (m : SQLiteMemory) (id : TaskId) (st : String) (r : JDict),
      r.isEmpty = false →
      get_task_result (update_task_statuses m
        [{ task_id := id, status := st, result := some r, error := none }]) id = some r) := by
  constructor
  · intro ops id hgave
    unfold get_task_result
    cases hl : tableLookup (applyOps emptyMemory ops).task_result id with
    | none => rfl
    | some r =>
        exfalso
        have hsome : (tableLookup (applyOps emptyMemory ops).task_result id).isSome = true := by
          rw [hl]
          rfl
        rcases resultPresent_gave ops emptyMemory id hsome with h1 | h2
        · exact Bool.noConfusion h1
        · rw [hgave] at h2
          exact Bool.noConfusion h2
  · intro m id st r hr
    unfold get_task_result
    have h2 : tableLookup (update_task_statuses m
        [{ task_id := id, status := st, result := some r, error := none }]).task_result id =
        tableLookup (applyResultError
          { m with task_status := updateWhere m.task_status id st }
          { task_id := id, status := st, result := some r, error := none }).task_result id := rfl
    rw [h2, applyResultError_task_result]
    simp [truthyDict, hr, tableLookup_insertOrReplace_self]

theorem get_task_result_by_row_witness :
    (gaveResult [Op.store [("t", [])]] "t" = false ∧
      get_task_result (applyOps emptyMemory [Op.store [("t", [])]]) "t" = none) ∧
    ((([("k", JVal.null)] : JDict).isEmpty = false) ∧
      get_task_result (update_task_statuses emptyMemory
        [{ task_id := "u", status := "failed",
           result := some [("k", JVal.null)], error := none }]) "u"
        = some [("k", JVal.null)]) :=
  ⟨⟨by decide, get_task_result_by_row.1 [Op.store [("t", [])]] "t" (by decide)⟩,
   ⟨by decide, get_task_result_by_row.2 emptyMemory "u" "failed" [("k", JVal.null)] (by decide)⟩⟩

/-- C3 counterexample: an entry that gives the (empty) result `{}` for a
known id — a result value that is present, not omitted — has its status
written but its result silently discarded by the `if result:` truthiness
test, contradicting the claimed set-or-replace. -/
theorem update_entry_counterexample :
    tableLookup (update_task_statuses (store_tasks emptyMemory [("t", [("k", JVal.null)])])
      [{ task_id := "t", status := "completed", result := some [], error := none }]).task_status "t"
      = some "completed" ∧
    tableLookup (update_task_statuses (store_tasks emptyMemory [("t", [("k", JVal.null)])])
      [{ task_id := "t", status := "completed", result := some [], error := none }]).task_result "t"
      = none := by decide

/-- C3 (amended): for every batch with pairwise-distinct ids and every
entry in it: the entry's status is written onto its id's existing status
row (ids with no status row get none); a TRUTHY (non-None, non-empty)
result replaces the stored result and a falsy one leaves the stored
result exactly as before the call; likewise for error. -/
theorem update_entry_effect (m : SQLiteMemory) (es : List StatusEntry) (e : StatusEntry)
    (hnd : (es.map StatusEntry.task_id).Nodup) (he : e ∈ es) :
    tableLookup (update_task_statuses m es).task_status e.task_id
      = (tableLookup m.task_status e.task_id).map (fun _ => e.status) ∧
    tableLookup (update_task_statuses m es).task_result e.task_id
      = (if truthyDict e.result then e.result
         else tableLookup m.task_result e.task_id) ∧
    tableLookup (update_task_statuses m es).task_error e.task_id
      = (if truthyStr e.error then e.error
         else tableLookup m.task_error e.task_id) := by
  refine ⟨?_, ?_, ?_⟩
  · rw [update_task_statuses_task_status]
    exact statusFold_self m.task_status hnd he
  · exact resultFold_self _ hnd he
  · exact errorFold_self _ hnd he

theorem update_entry_effect_witness :
    ((([{ task_id := "a", status := "completed", result := some [("v", JVal.num 1)], error := none },
        { task_id := "b", status := "failed", result := none, error := some "oops" }] :
        List StatusEntry).map StatusEntry.task_id).Nodup ∧
      ({ task_id := "a", status := "completed", result := some [("v", JVal.num 1)], error := none } :
        StatusEntry) ∈
        [{ task_id := "a", status := "completed", result := some [("v", JVal.num 1)], error := none },
         { task_id := "b", status := "failed", result := none, error := some "oops" }]) ∧
    (tableLookup (update_task_statuses (store_tasks emptyMemory [("a", []), ("b", [])])
        [{ task_id := "a", status := "completed", result := some [("v", JVal.num 1)], error := none },
         { task_id := "b", status := "failed", result := none, error := some "oops" }]).task_status "a"
      = (tableLookup (store_tasks emptyMemory [("a", []), ("b", [])]).task_status "a").map
          (fun _ => "completed") ∧
    tableLookup (update_task_statuses (store_tasks emptyMemory [("a", []), ("b", [])])
        [{ task_id := "a", status := "completed", result := some [("v", JVal.num 1)], error := none },
         { task_id := "b", status := "failed", result := none, error := some "oops" }]).task_result "a"
      = (if truthyDict (some [("v", JVal.num 1)]) then some [("v", JVal.num 1)]
         else tableLookup (store_tasks emptyMemory [("a", []), ("b", [])]).task_result "a") ∧
    tableLookup (update_task_statuses (store_tasks emptyMemory [("a", []), ("b", [])])
        [{ task_id := "a", status := "completed", result := some [("v", JVal.num 1)], error := none },
         { task_id := "b", status := "failed", result := none, error := some "oops" }]).task_error "a"
      = (if truthyStr (none : Option String) then (none : Option String)
         else tableLookup (store_tasks emptyMemory [("a", []), ("b", [])]).task_error "a")) :=
  ⟨⟨by decide, List.mem_cons_self _ _⟩,
   update_entry_effect (store_tasks emptyMemory [("a", []), ("b", [])])
     [{ task_id := "a", status := "completed", result := some [("v", JVal.num 1)], error := none },
      { task_id := "b", status := "failed", result := none, error := some "oops" }]
     { task_id := "a", status := "completed", result := some [("v", JVal.num 1)], error := none }
     (by decide) (List.mem_cons_self _ _)⟩

/-- C4: `store_tasks` is insert-if-absent: re-inserting an id already
present in a reachable store (with any definition) leaves that id's
definition and status rows untouched, and the result and error tables are
never touched by `store_tasks` at all. -/
theorem store_tasks_insert_if_absent {m : SQLiteMemory} (hre : Reachable m)
    {id : TaskId} {d : JDict} (hd : tableLookup m.task_definition id = some d)
    (batch : List (TaskId × JDict)) :
    tableLookup (store_tasks m batch).task_definition id = some d ∧
    tableLookup (store_tasks m batch).task_status id = tableLookup m.task_status id ∧
    (store_tasks m batch).task_result = m.task_result ∧
    (store_tasks m batch).task_error = m.task_error := by
  have hinv := hre.memInv
  have hst : (tableLookup m.task_status id).isSome = true := by
    refine hinv.2.2.2.2 id ?_
    rw [hd]
    rfl
  cases hso : tableLookup m.task_status id with
  | none =>
      rw [hso] at hst
      exact Bool.noConfusion hst
  | some st =>
      exact ⟨store_tasks_definition_of_some batch hd,
        by rw [store_tasks_status_of_some batch hso], rfl, rfl⟩

theorem store_tasks_insert_if_absent_witness :
    (Reachable (applyOps emptyMemory
        [ Op.store [("t", [("v", JVal.num 1)])]
        , Op.update [{ task_id := "t", status := "completed",
                       result := some [("ok", JVal.bool true)], error := none }]]) ∧
      tableLookup (applyOps emptyMemory
        [ Op.store [("t", [("v", JVal.num 1)])]
        , Op.update [{ task_id := "t", status := "completed",
                       result := some [("ok", JVal.bool true)], error := none }]]).task_definition "t"
        = some [("v", JVal.num 1)]) ∧
    (tableLookup (store_tasks (applyOps emptyMemory
        [ Op.store [("t", [("v", JVal.num 1)])]
        , Op.update [{ task_id := "t", status := "completed",
                       result := some [("ok", JVal.bool true)], error := none }]])
        [("t", [("other", JVal.num 2)])]).task_definition "t" = some [("v", JVal.num 1)] ∧
      tableLookup (store_tasks (applyOps emptyMemory
        [ Op.store [("t", [("v", JVal.num 1)])]
        , Op.update [{ task_id := "t", status := "completed",
                       result := some [("ok", JVal.bool true)], error := none }]])
        [("t", [("other", JVal.num 2)])]).task_status "t"
        = tableLookup (applyOps emptyMemory
            [ Op.store [("t", [("v", JVal.num 1)])]
            , Op.update [{ task_id := "t", status := "completed",
                           result := some [("ok", JVal.bool true)], error := none }]]).task_status "t" ∧
      (store_tasks (applyOps emptyMemory
        [ Op.store [("t", [("v", JVal.num 1)])]
        , Op.update [{ task_id := "t", status := "completed",
                       result := some [("ok", JVal.bool true)], error := none }]])
        [("t", [("other", JVal.num 2)])]).task_result
        = (applyOps emptyMemory
            [ Op.store [("t", [("v", JVal.num 1)])]
            , Op.update [{ task_id := "t", status := "completed",
                           result := some [("ok", JVal.bool true)], error := none }]]).task_result ∧
      (store_tasks (applyOps emptyMemory
        [ Op.store [("t", [("v", JVal.num 1)])]
        , Op.update [{ task_id := "t", status := "completed",
                       result := some [("ok", JVal.bool true)], error := none }]])
        [("t", [("other", JVal.num 2)])]).task_error
        = (applyOps emptyMemory
            [ Op.store [("t", [("v", JVal.num 1)])]
            , Op.update [{ task_id := "t", status := "completed",
                           result := some [("ok", JVal.bool true)], error := none }]]).task_error) :=
  ⟨⟨⟨[ Op.store [("t", [("v", JVal.num 1)])]
     , Op.update [{ task_id := "t", status := "completed",
                    result := some [("ok", JVal.bool true)], error := none }]], rfl⟩, by decide⟩,
   store_tasks_insert_if_absent
     ⟨[ Op.store [("t", [("v", JVal.num 1)])]
      , Op.update [{ task_id := "t", status := "completed",
                     result := some [("ok", JVal.bool true)], error := none }]], rfl⟩
     (by decide) [("t", [("other", JVal.num 2)])]⟩


/-- C5: when no supplied task id is pending, `run` dispatches nothing,
reports that all tasks are already completed, never creates the thread
pool, and returns the store exactly as it was. -/
theorem run_idempotent_resume (tasks order : List Task) (stop : Option (Nat → Bool))
    (m : SQLiteMemory) (h : ∀ t ∈ tasks, t.id ∉ get_pending_tasks m) :
    run tasks order stop m =
      { memory := m, dispatched := [], poolCreated := false
        printed := ["All tasks are already completed."] } := by
  have hfil : tasks.filter (fun t => (get_pending_tasks m).contains t.id) = [] := by
    rw [List.filter_eq_nil_iff]
    intro t ht hc
    exact h t ht (List.elem_iff.mp hc)
  unfold run
  simp only [hfil]
  rfl

theorem run_idempotent_resume_witness :
    (∀ t ∈ [({ id := "t", invoke := Except.ok [] } : Task)],
      Task.id t ∉ get_pending_tasks (update_task_statuses (store_tasks emptyMemory [("t", [])])
        [{ task_id := "t", status := "completed", result := none, error := none }])) ∧
    run [({ id := "t", invoke := Except.ok [] } : Task)] [] none
      (update_task_statuses (store_tasks emptyMemory [("t", [])])
        [{ task_id := "t", status := "completed", result := none, error := none }]) =
      { memory := update_task_statuses (store_tasks emptyMemory [("t", [])])
          [{ task_id := "t", status := "completed", result := none, error := none }]
        dispatched := [], poolCreated := false
        printed := ["All tasks are already completed."] } :=
  ⟨by decide,
   run_idempotent_resume [({ id := "t", invoke := Except.ok [] } : Task)] [] none
     (update_task_statuses (store_tasks emptyMemory [("t", [])])
       [{ task_id := "t", status := "completed", result := none, error := none }])
     (by decide)⟩

/-- C6 counterexample: a task that raises with the empty message is
recorded as `failed` with no error row, and the summary at the end of the
run then prints `Failed tasks: 0` although the store holds a record with
status `failed` — so the failed line does NOT count every failed record. -/
theorem run_summary_counterexample :
    (run [({ id := "t6", invoke := Except.error "" } : Task)]
        [({ id := "t6", invoke := Except.error "" } : Task)] none
        (store_tasks emptyMemory [("t6", [])])).printed =
      ["Pending tasks: 0", "Completed tasks: 0", "Failed tasks: 0"] ∧
    tableLookup (run [({ id := "t6", invoke := Except.error "" } : Task)]
        [({ id := "t6", invoke := Except.error "" } : Task)] none
        (store_tasks emptyMemory [("t6", [])])).memory.task_status "t6" = some "failed" := by
  decide

/-- C6 (amended): whenever `run` dispatches at least one task, its output
ends with exactly three lines, in order pending, completed, failed, each
of the form label-colon-integer, read fresh from the final store — except
that the failed line counts only the failed records that also have a
stored error (`get_failed_tasks` is an inner join with `task_error`). -/
theorem run_summary_contract (tasks order : List Task) (stop : Option (Nat → Bool))
    (m : SQLiteMemory)
    (h : tasks.filter (fun t => (get_pending_tasks m).contains t.id) ≠ []) :
    ∃ pre,
      (run tasks order stop m).printed =
        pre ++
          [ "Pending tasks: " ++ toString (pendingCount (run tasks order stop m).memory)
          , "Completed tasks: " ++ toString (completedCount (run tasks order stop m).memory)
          , "Failed tasks: " ++
              toString (failedWithErrorCount (run tasks order stop m).memory) ] := by
  have hne : (tasks.filter (fun t => (get_pending_tasks m).contains t.id)).isEmpty = false :=
    List.isEmpty_eq_false.mpr h
  refine ⟨(harvestLoop m stop order 0).2, ?_⟩
  unfold run
  simp only [hne, Bool.false_eq_true, if_false]
  rw [status_summary_eq]

theorem run_summary_contract_witness :
    ([({ id := "t", invoke := Except.ok [("ok", JVal.bool true)] } : Task)].filter
      (fun t => (get_pending_tasks (store_tasks emptyMemory [("t", [])])).contains t.id) ≠ []) ∧
    (∃ pre,
      (run [({ id := "t", invoke := Except.ok [("ok", JVal.bool true)] } : Task)]
          [({ id := "t", invoke := Except.ok [("ok", JVal.bool true)] } : Task)] none
          (store_tasks emptyMemory [("t", [])])).printed =
        pre ++
          [ "Pending tasks: " ++ toString (pendingCount
              (run [({ id := "t", invoke := Except.ok [("ok", JVal.bool true)] } : Task)]
                [({ id := "t", invoke := Except.ok [("ok", JVal.bool true)] } : Task)] none
                (store_tasks emptyMemory [("t", [])])).memory)
          , "Completed tasks: " ++ toString (completedCount
              (run [({ id := "t", invoke := Except.ok [("ok", JVal.bool true)] } : Task)]
                [({ id := "t", invoke := Except.ok [("ok", JVal.bool true)] } : Task)] none
                (store_tasks emptyMemory [("t", [])])).memory)
          , "Failed tasks: " ++ toString (failedWithErrorCount
              (run [({ id := "t", invoke := Except.ok [("ok", JVal.bool true)] } : Task)]
                [({ id := "t", invoke := Except.ok [("ok", JVal.bool true)] } : Task)] none
                (store_tasks emptyMemory [("t", [])])).memory) ]) :=
  ⟨List.cons_ne_nil _ _,
   run_summary_contract [({ id := "t", invoke := Except.ok [("ok", JVal.bool true)] } : Task)]
     [({ id := "t", invoke := Except.ok [("ok", JVal.bool true)] } : Task)] none
     (store_tasks emptyMemory [("t", [])]) (List.cons_ne_nil _ _)⟩


theorem mem_get_pending_of_lookup {m : SQLiteMemory} {id : TaskId}
    (h : tableLookup m.task_status id = some "pending") : id ∈ get_pending_tasks m := by
  unfold get_pending_tasks
  exact List.mem_map.mpr
    ⟨(id, "pending"), List.mem_filter.mpr ⟨tableLookup_mem h, by simp⟩, rfl⟩

/-- C7 counterexample: a task that raises with the EMPTY message is
recorded as `failed`, but no error row is written (`if error:` is falsy on
the empty string), so the stored record does not carry the fault's
message as the claim states for every message. -/
theorem run_fault_counterexample :
    tableLookup (run [({ id := "t7", invoke := Except.error "" } : Task)]
        [({ id := "t7", invoke := Except.error "" } : Task)] none
        (store_tasks emptyMemory [("t7", [])])).memory.task_status "t7" = some "failed" ∧
    tableLookup (run [({ id := "t7", invoke := Except.error "" } : Task)]
        [({ id := "t7", invoke := Except.error "" } : Task)] none
        (store_tasks emptyMemory [("t7", [])])).memory.task_error "t7" = none := by
  decide

/-- C7 (amended): for every dispatched task whose invocation raises a
NONEMPTY message, the run records status `failed` with that message and
leaves the task's result absent (given none was stored before), the run
is not aborted (every pending task is dispatched), and every sibling
pending task still gets its own outcome recorded: its own terminal
status, its own truthy result on success, its own nonempty error message
on failure.  This holds for every completion order of the pool. -/
theorem run_records_fault (tasks order : List Task) (m : SQLiteMemory)
    (t : Task) (msg : String)
    (hnd : (tasks.map Task.id).Nodup)
    (ht : t ∈ tasks)
    (hinv : t.invoke = Except.error msg)
    (hmsg : msg ≠ "")
    (hpend : tableLookup m.task_status t.id = some "pending")
    (hres : tableLookup m.task_result t.id = none)
    (hperm : order.Perm (tasks.filter (fun u => (get_pending_tasks m).contains u.id))) :
    tableLookup (run tasks order none m).memory.task_status t.id = some "failed" ∧
    tableLookup (run tasks order none m).memory.task_error t.id = some msg ∧
    tableLookup (run tasks order none m).memory.task_result t.id = none ∧
    (run tasks order none m).dispatched =
      tasks.filter (fun u => (get_pending_tasks m).contains u.id) ∧
    (∀ u ∈ tasks, u.id ≠ t.id →
      tableLookup m.task_status u.id = some "pending" →
      tableLookup (run tasks order none m).memory.task_status u.id
        = some (outcomeStatus u) ∧
      (∀ r, u.invoke = Except.ok r → r.isEmpty = false →
        tableLookup m.task_result u.id = none →
        tableLookup (run tasks order none m).memory.task_result u.id = some r) ∧
      (∀ e2, u.invoke = Except.error e2 → e2.isEmpty = false →
        tableLookup (run tasks order none m).memory.task_error u.id = some e2)) := by
  have httr : t ∈ tasks.filter (fun u => (get_pending_tasks m).contains u.id) :=
    List.mem_filter.mpr ⟨ht, List.elem_iff.mpr (mem_get_pending_of_lookup hpend)⟩
  have hne : (tasks.filter (fun u => (get_pending_tasks m).contains u.id)).isEmpty = false :=
    List.isEmpty_eq_false.mpr (List.ne_nil_of_mem httr)
  have hndf : ((tasks.filter (fun u => (get_pending_tasks m).contains u.id)).map Task.id).Nodup :=
    hnd.sublist ((List.filter_sublist tasks).map Task.id)
  have hndo : (order.map Task.id).Nodup := ((hperm.map Task.id).nodup_iff).mpr hndf
  have hto : t ∈ order := hperm.mem_iff.mpr httr
  have hrunmem : (run tasks order none m).memory = order.foldl recordOutcome m := by
    unfold run
    simp only [hne, Bool.false_eq_true, if_false, harvestLoop_none]
  have hdisp : (run tasks order none m).dispatched =
      tasks.filter (fun u => (get_pending_tasks m).contains u.id) := by
    unfold run
    simp only [hne, Bool.false_eq_true, if_false]
  have hself := foldl_recordOutcome_self order m hndo hto
  have hEmsg : msg.isEmpty = false := by
    rw [← Bool.not_eq_true]
    intro hcon
    exact hmsg ((String.isEmpty_iff msg).mp hcon)
  refine ⟨?_, ?_, ?_, hdisp, ?_⟩
  · rw [hrunmem, hself.1, hpend]
    simp [outcomeStatus, hinv]
  · have he := hself.2.2
    simp only [hinv] at he
    rw [hrunmem, he, hEmsg]
    simp
  · have hr := hself.2.1
    simp only [hinv] at hr
    rw [hrunmem, hr, hres]
  · intro u hu hneq hupend
    have hmemu : u ∈ tasks.filter (fun v => (get_pending_tasks m).contains v.id) :=
      List.mem_filter.mpr ⟨hu, List.elem_iff.mpr (mem_get_pending_of_lookup hupend)⟩
    have huo : u ∈ order := hperm.mem_iff.mpr hmemu
    have huself := foldl_recordOutcome_self order m hndo huo
    refine ⟨?_, ?_, ?_⟩
    · rw [hrunmem, huself.1, hupend]
      rfl
    · intro r hrinv hrne hures
      have h21 := huself.2.1
      simp only [hrinv] at h21
      rw [hrunmem, h21, hrne]
      simp
    · intro e2 heinv hene
      have h22 := huself.2.2
      simp only [heinv] at h22
      rw [hrunmem, h22, hene]
      simp

theorem run_records_fault_witness :
    (([({ id := "t1", invoke := Except.ok [("ok", JVal.bool true)] } : Task), ({ id := "t3", invoke := Except.error "boom" } : Task)].map Task.id).Nodup ∧
      ({ id := "t3", invoke := Except.error "boom" } : Task) ∈ [({ id := "t1", invoke := Except.ok [("ok", JVal.bool true)] } : Task), ({ id := "t3", invoke := Except.error "boom" } : Task)] ∧
      Task.invoke ({ id := "t3", invoke := Except.error "boom" } : Task) = Except.error "boom" ∧
      ("boom" : String) ≠ "" ∧
      tableLookup (store_tasks emptyMemory [("t1", []), ("t3", [])]).task_status "t3" = some "pending" ∧
      tableLookup (store_tasks emptyMemory [("t1", []), ("t3", [])]).task_result "t3" = none ∧
      List.Perm [({ id := "t1", invoke := Except.ok [("ok", JVal.bool true)] } : Task), ({ id := "t3", invoke := Except.error "boom" } : Task)]
        ([({ id := "t1", invoke := Except.ok [("ok", JVal.bool true)] } : Task), ({ id := "t3", invoke := Except.error "boom" } : Task)].filter (fun u => (get_pending_tasks (store_tasks emptyMemory [("t1", []), ("t3", [])])).contains u.id))) ∧
    (tableLookup (run [({ id := "t1", invoke := Except.ok [("ok", JVal.bool true)] } : Task), ({ id := "t3", invoke := Except.error "boom" } : Task)] [({ id := "t1", invoke := Except.ok [("ok", JVal.bool true)] } : Task), ({ id := "t3", invoke := Except.error "boom" } : Task)] none (store_tasks emptyMemory [("t1", []), ("t3", [])])).memory.task_status "t3" = some "failed" ∧
     tableLookup (run [({ id := "t1", invoke := Except.ok [("ok", JVal.bool true)] } : Task), ({ id := "t3", invoke := Except.error "boom" } : Task)] [({ id := "t1", invoke := Except.ok [("ok", JVal.bool true)] } : Task), ({ id := "t3", invoke := Except.error "boom" } : Task)] none (store_tasks emptyMemory [("t1", []), ("t3", [])])).memory.task_error "t3" = some "boom" ∧
     tableLookup (run [({ id := "t1", invoke := Except.ok [("ok", JVal.bool true)] } : Task), ({ id := "t3", invoke := Except.error "boom" } : Task)] [({ id := "t1", invoke := Except.ok [("ok", JVal.bool true)] } : Task), ({ id := "t3", invoke := Except.error "boom" } : Task)] none (store_tasks emptyMemory [("t1", []), ("t3", [])])).memory.task_result "t3" = none ∧
     (run [({ id := "t1", invoke := Except.ok [("ok", JVal.bool true)] } : Task), ({ id := "t3", invoke := Except.error "boom" } : Task)] [({ id := "t1", invoke := Except.ok [("ok", JVal.bool true)] } : Task), ({ id := "t3", invoke := Except.error "boom" } : Task)] none (store_tasks emptyMemory [("t1", []), ("t3", [])])).dispatched =
       [({ id := "t1", invoke := Except.ok [("ok", JVal.bool true)] } : Task), ({ id := "t3", invoke := Except.error "boom" } : Task)].filter (fun u => (get_pending_tasks (store_tasks emptyMemory [("t1", []), ("t3", [])])).contains u.id) ∧
     (∀ u ∈ [({ id := "t1", invoke := Except.ok [("ok", JVal.bool true)] } : Task), ({ id := "t3", invoke := Except.error "boom" } : Task)], Task.id u ≠ "t3" →
       tableLookup (store_tasks emptyMemory [("t1", []), ("t3", [])]).task_status u.id = some "pending" →
       tableLookup (run [({ id := "t1", invoke := Except.ok [("ok", JVal.bool true)] } : Task), ({ id := "t3", invoke := Except.error "boom" } : Task)] [({ id := "t1", invoke := Except.ok [("ok", JVal.bool true)] } : Task), ({ id := "t3", invoke := Except.error "boom" } : Task)] none (store_tasks emptyMemory [("t1", []), ("t3", [])])).memory.task_status u.id = some (outcomeStatus u) ∧
       (∀ r, u.invoke = Except.ok r → r.isEmpty = false →
         tableLookup (store_tasks emptyMemory [("t1", []), ("t3", [])]).task_result u.id = none →
         tableLookup (run [({ id := "t1", invoke := Except.ok [("ok", JVal.bool true)] } : Task), ({ id := "t3", invoke := Except.error "boom" } : Task)] [({ id := "t1", invoke := Except.ok [("ok", JVal.bool true)] } : Task), ({ id := "t3", invoke := Except.error "boom" } : Task)] none (store_tasks emptyMemory [("t1", []), ("t3", [])])).memory.task_result u.id = some r) ∧
       (∀ e2, u.invoke = Except.error e2 → e2.isEmpty = false →
         tableLookup (run [({ id := "t1", invoke := Except.ok [("ok", JVal.bool true)] } : Task), ({ id := "t3", invoke := Except.error "boom" } : Task)] [({ id := "t1", invoke := Except.ok [("ok", JVal.bool true)] } : Task), ({ id := "t3", invoke := Except.error "boom" } : Task)] none (store_tasks emptyMemory [("t1", []), ("t3", [])])).memory.task_error u.id = some e2))) :=
  ⟨⟨by decide, List.mem_cons_of_mem _ (List.mem_cons_self _ _), rfl, by decide, rfl, rfl,
    List.Perm.refl _⟩,
   run_records_fault [({ id := "t1", invoke := Except.ok [("ok", JVal.bool true)] } : Task), ({ id := "t3", invoke := Except.error "boom" } : Task)] [({ id := "t1", invoke := Except.ok [("ok", JVal.bool true)] } : Task), ({ id := "t3", invoke := Except.error "boom" } : Task)] (store_tasks emptyMemory [("t1", []), ("t3", [])]) ({ id := "t3", invoke := Except.error "boom" } : Task) "boom"
     (by decide) (List.mem_cons_of_mem _ (List.mem_cons_self _ _)) rfl (by decide) rfl rfl
     (List.Perm.refl _)⟩


theorem not_mem_pending_of_none {m : SQLiteMemory} {id : TaskId}
    (h : tableLookup m.task_status id = none) : id ∉ get_pending_tasks m := by
  intro hmem
  obtain ⟨r, hr, hfst⟩ := List.mem_map.mp hmem
  exact (tableLookup_eq_none_iff _ _).mp h r (List.mem_of_mem_filter hr) hfst

theorem not_mem_completed_of_none {m : SQLiteMemory} {id : TaskId}
    (h : tableLookup m.task_status id = none) : id ∉ get_completed_tasks m := by
  intro hmem
  obtain ⟨r, hr, hfst⟩ := List.mem_map.mp hmem
  exact (tableLookup_eq_none_iff _ _).mp h r (List.mem_of_mem_filter hr) hfst

theorem not_mem_failedIds_of_none {m : SQLiteMemory} {id : TaskId}
    (h : tableLookup m.task_status id = none) :
    id ∉ (get_failed_tasks m).map Prod.fst := by
  intro hmem
  obtain ⟨p, hp, hfst⟩ := List.mem_map.mp hmem
  obtain ⟨r, hr, hg⟩ := List.mem_filterMap.mp hp
  cases hge : tableLookup m.task_error r.1 with
  | none => rw [hge] at hg; cases hg
  | some err =>
      rw [hge] at hg
      cases hg
      exact (tableLookup_eq_none_iff _ _).mp h r (List.mem_of_mem_filter hr) hfst

/-- C8 counterexample: the id `t8` is inserted by `store_tasks` and never
cleared, but after an update to `failed` with no error it appears in NONE
of the pending, completed, and failed queries — not in exactly one. -/
theorem partition_counterexample :
    tableLookup (update_task_statuses (store_tasks emptyMemory [("t8", [])])
        [{ task_id := "t8", status := "failed", result := none, error := none }]).task_status "t8"
      = some "failed" ∧
    get_pending_tasks (update_task_statuses (store_tasks emptyMemory [("t8", [])])
        [{ task_id := "t8", status := "failed", result := none, error := none }]) = [] ∧
    get_completed_tasks (update_task_statuses (store_tasks emptyMemory [("t8", [])])
        [{ task_id := "t8", status := "failed", result := none, error := none }]) = [] ∧
    get_failed_tasks (update_task_statuses (store_tasks emptyMemory [("t8", [])])
        [{ task_id := "t8", status := "failed", result := none, error := none }]) = [] := by
  decide

/-- C8 (amended): in every reachable store, an id with a status row
appears in the pending query iff its status is `pending`, in the
completed query iff `completed`, and among the failed-query ids iff its
status is `failed` AND an error is stored; hence it is in at most one
query, and in exactly one unless its status is `failed` without a stored
error or some other string. -/
theorem status_partition (m : SQLiteMemory) (st : String) (id : TaskId)
    (hre : Reachable m) (hst : tableLookup m.task_status id = some st) :
    (id ∈ get_pending_tasks m ↔ st = "pending") ∧
    (id ∈ get_completed_tasks m ↔ st = "completed") ∧
    (id ∈ (get_failed_tasks m).map Prod.fst ↔
      st = "failed" ∧ (tableLookup m.task_error id).isSome = true) := by
  have hk : KeysOk m.task_status := hre.memInv.2.1
  refine ⟨?_, ?_, ?_⟩
  · rw [show get_pending_tasks m =
        (m.task_status.filter (fun r => r.2 = "pending")).map Prod.fst from rfl,
      mem_statusFilter_iff hk "pending" id, hst]
    simp
  · rw [show get_completed_tasks m =
        (m.task_status.filter (fun r => r.2 = "completed")).map Prod.fst from rfl,
      mem_statusFilter_iff hk "completed" id, hst]
    simp
  · rw [mem_failedIds_iff hk id, hst]
    simp

theorem status_partition_witness :
    (Reachable (applyOps emptyMemory [Op.store [("t", [])]]) ∧
      tableLookup (applyOps emptyMemory [Op.store [("t", [])]]).task_status "t"
        = some "pending") ∧
    (("t" : TaskId) ∈ get_pending_tasks (applyOps emptyMemory [Op.store [("t", [])]]) ↔
        ("pending" : String) = "pending") ∧
    (("t" : TaskId) ∈ get_completed_tasks (applyOps emptyMemory [Op.store [("t", [])]]) ↔
        ("pending" : String) = "completed") ∧
    (("t" : TaskId) ∈ (get_failed_tasks (applyOps emptyMemory [Op.store [("t", [])]])).map Prod.fst ↔
        ("pending" : String) = "failed" ∧
          (tableLookup (applyOps emptyMemory [Op.store [("t", [])]]).task_error "t").isSome = true) :=
  ⟨⟨⟨[Op.store [("t", [])]], rfl⟩, rfl⟩,
   status_partition (applyOps emptyMemory [Op.store [("t", [])]]) "pending" "t"
     ⟨[Op.store [("t", [])]], rfl⟩ rfl⟩

/-- C9: `get_task_status` on an id with no status row fails (the
`fetchone()[0]` subscript on a missing row raises, embedded as
`Except.error`) rather than returning an absent marker, and returns the
stored status string when a row exists. -/
theorem get_task_status_raises (m : SQLiteMemory) (id : TaskId) :
    (tableLookup m.task_status id = none →
      get_task_status m id =
        Except.error "TypeError: NoneType object is not subscriptable") ∧
    (∀ st, tableLookup m.task_status id = some st →
      get_task_status m id = Except.ok st) := by
  constructor
  · intro h
    unfold get_task_status
    rw [h]
  · intro st h
    unfold get_task_status
    rw [h]

theorem get_task_status_raises_witness :
    get_task_status emptyMemory "x"
      = Except.error "TypeError: NoneType object is not subscriptable" ∧
    get_task_status (store_tasks emptyMemory [("y", [])]) "y" = Except.ok "pending" :=
  ⟨(get_task_status_raises emptyMemory "x").1 rfl,
   (get_task_status_raises (store_tasks emptyMemory [("y", [])]) "y").2 "pending" rfl⟩

/-- C10 counterexample: an entry for a never-inserted id that carries the
result value `{}` (present, not omitted) stores nothing: the value does
NOT become visible in `dump_all`'s results collection, against the
claim's "that value is stored". -/
theorem update_unknown_id_counterexample :
    tableLookup (dump_all (update_task_statuses emptyMemory
      [{ task_id := "u", status := "completed",
         result := some [], error := none }])).task_statuses "u" = none ∧
    tableLookup (dump_all (update_task_statuses emptyMemory
      [{ task_id := "u", status := "completed",
         result := some [], error := none }])).task_results "u" = none := by
  decide

/-- C10 (amended): an update entry for an id with no status row creates
none — the id stays out of the pending, completed and failed queries and
out of `dump_all`'s statuses collection — yet a TRUTHY (non-empty) carried
result or error is stored and becomes visible in `dump_all`'s
results/errors collections for that status-less id; a falsy carried
value (empty dict / empty string) is discarded. -/
theorem update_unknown_id (m : SQLiteMemory) (e : StatusEntry)
    (hst : tableLookup m.task_status e.task_id = none) :
    tableLookup (update_task_statuses m [e]).task_status e.task_id = none ∧
    e.task_id ∉ get_pending_tasks (update_task_statuses m [e]) ∧
    e.task_id ∉ get_completed_tasks (update_task_statuses m [e]) ∧
    e.task_id ∉ (get_failed_tasks (update_task_statuses m [e])).map Prod.fst ∧
    (truthyDict e.result = true →
      tableLookup (dump_all (update_task_statuses m [e])).task_results e.task_id
        = e.result) ∧
    (truthyStr e.error = true →
      tableLookup (dump_all (update_task_statuses m [e])).task_errors e.task_id
        = e.error) ∧
    tableLookup (dump_all (update_task_statuses m [e])).task_statuses e.task_id = none := by
  have hstatus : tableLookup (update_task_statuses m [e]).task_status e.task_id = none := by
    rw [update_task_statuses_task_status,
      show ([e].foldl (fun t x => updateWhere t x.task_id x.status) m.task_status)
        = updateWhere m.task_status e.task_id e.status from rfl,
      tableLookup_updateWhere_self, hst]
    rfl
  refine ⟨hstatus, not_mem_pending_of_none hstatus, not_mem_completed_of_none hstatus,
    not_mem_failedIds_of_none hstatus, ?_, ?_, hstatus⟩
  · intro htr
    have h3 := @resultFold_self [e] e
      { m with task_status := [e].foldl (fun t x => updateWhere t x.task_id x.status) m.task_status }
      (by simp) (List.mem_singleton.mpr rfl)
    rw [if_pos htr] at h3
    exact h3
  · intro htr
    have h3 := @errorFold_self [e] e
      { m with task_status := [e].foldl (fun t x => updateWhere t x.task_id x.status) m.task_status }
      (by simp) (List.mem_singleton.mpr rfl)
    rw [if_pos htr] at h3
    exact h3

theorem update_unknown_id_witness :
    (tableLookup emptyMemory.task_status "u" = none) ∧
    (tableLookup (update_task_statuses emptyMemory
        [{ task_id := "u", status := "done",
           result := some [("k", JVal.null)], error := some "boom" }]).task_status "u" = none ∧
      ("u" : TaskId) ∉ get_pending_tasks (update_task_statuses emptyMemory
        [{ task_id := "u", status := "done",
           result := some [("k", JVal.null)], error := some "boom" }]) ∧
      ("u" : TaskId) ∉ get_completed_tasks (update_task_statuses emptyMemory
        [{ task_id := "u", status := "done",
           result := some [("k", JVal.null)], error := some "boom" }]) ∧
      ("u" : TaskId) ∉ (get_failed_tasks (update_task_statuses emptyMemory
        [{ task_id := "u", status := "done",
           result := some [("k", JVal.null)], error := some "boom" }])).map Prod.fst ∧
      (truthyDict (some [("k", JVal.null)]) = true →
        tableLookup (dump_all (update_task_statuses emptyMemory
          [{ task_id := "u", status := "done",
             result := some [("k", JVal.null)], error := some "boom" }])).task_results "u"
          = some [("k", JVal.null)]) ∧
      (truthyStr (some "boom") = true →
        tableLookup (dump_all (update_task_statuses emptyMemory
          [{ task_id := "u", status := "done",
             result := some [("k", JVal.null)], error := some "boom" }])).task_errors "u"
          = some "boom") ∧
      tableLookup (dump_all (update_task_statuses emptyMemory
        [{ task_id := "u", status := "done",
           result := some [("k", JVal.null)], error := some "boom" }])).task_statuses "u" = none) :=
  ⟨rfl,
   update_unknown_id emptyMemory
     { task_id := "u", status := "done",
       result := some [("k", JVal.null)], error := some "boom" } rfl⟩


end Messor
